import Mathlib

/-!
Shallow embedding of the pysinthe polymer-tracking engine
(src/pysinthe/polymer.py) together with the parts of its data model that
polymer.py imports from feature.py, eventsignal.py and choices.py.  Those
three modules are not part of the sources, so their definitions are
modelled from the specification (spec.md sections 3, 4.1 and 4.2); every
such definition carries a doc comment saying so.  Everything else is a
direct translation of polymer.py.

Modelling conventions:
* machine integers and coordinates are Int; weights, propensities, random
  draws and termination efficiencies are Rat;
* Python object identity for Polymerase objects is modelled by full value
  equality of the Polymerase structure;
* the synchronous Signal objects of eventsignal.py are modelled by event
  traces: every operation returns the list of notifications it fired, in
  firing order, and the propensity-changed notification carries the
  engine state (polymerase list, weight list, running total) visible to a
  handler at the instant it fires;
* randomness is passed in explicitly: a Rat draw for every call of
  weighted_choice and a stream (Nat -> Rat) of random.random() values for
  termination rolls;
* a Python exception (RuntimeError, IndexError, KeyError, ValueError,
  AssertionError) is an Except.error; an operation that raises is not a
  completed operation and produces no state.
-/

namespace PySinthe

/-- Python list.insert: inserts at position i, clamping to the end when i
is past the end of the list. -/
def pyInsert : List α → Nat → α → List α
  | l, 0, x => x :: l
  | [], _ + 1, x => [x]
  | a :: l, n + 1, x => a :: pyInsert l n x

/-- Python del l[i]: removes the element at index i (no-op out of range). -/
def removeAt : List α → Nat → List α
  | [], _ => []
  | _ :: l, 0 => l
  | a :: l, n + 1 => a :: removeAt l n

/-- Index of the first element satisfying p, if any (Python-style linear
scan with break). -/
def firstIdxWhere (p : α → Bool) : List α → Option Nat
  | [] => none
  | a :: l => if p a then some 0 else (firstIdxWhere p l).map (· + 1)

/-- Pointwise update of a Python dict modelled as an association list:
applies f to the value stored under key k. -/
def dictAdjust (d : List (String × Int)) (k : String) (f : Int → Int) :
    List (String × Int) :=
  d.map (fun p => if p.1 = k then (p.1, f p.2) else p)

/-- Modelled from the spec: choices.py is not in the sources.  Spec 4.1:
weighted selection draws one uniform value r in [0, total weight), scans
the candidates accumulating weights and returns the first index whose
cumulative weight exceeds the draw; it fails (none) when that never
happens, in particular when the total weight is zero. -/
def weightedChoiceIdx (weights : List ℚ) (r : ℚ) : Option Nat :=
  go weights 0 0
where
  go : List ℚ → ℚ → Nat → Option Nat
    | [], _, _ => none
    | w :: rest, acc, i => if r < acc + w then some i else go rest (acc + w) (i + 1)

/-- polymer.py elements_intersect: two inclusive integer segments
[start1, stop1] and [start2, stop2] overlap. -/
def spansIntersect (start1 stop1 start2 stop2 : Int) : Bool :=
  decide (stop1 ≥ start2) && decide (stop2 ≥ start1)

/-- Modelled from the spec: feature.py is not in the sources.  Spec 3:
a polymerase is a mobile entity with species name, interval
[start, stop], footprint, movement weight (speed) and the cached
left-most-element scan index. -/
structure Polymerase where
  name : String
  footprint : Int
  speed : ℚ
  start : Int
  stop : Int
  left_most_element : Nat
  deriving DecidableEq, Repr

/-- Modelled from the spec: feature.py is not in the sources.  Spec 3:
an element has a name, a type tag, an integer interval, a covered
boolean plus a shadow previously-saved covered value, an interaction
table (promoter: species membership; terminator: per-species
termination efficiency), and for terminators a readthrough flag and a
gene label. -/
structure Element where
  name : String
  etype : String
  start : Int
  stop : Int
  interactions : List String
  efficiency : List (String × ℚ)
  readthrough : Bool
  gene : String
  covered : Bool
  old_covered : Bool
  deriving DecidableEq, Repr

/-- Modelled from the spec: feature.py is not in the sources.  Spec 3:
the mask is an interval whose start recedes, with a pass-through
species set. -/
structure Mask where
  name : String
  start : Int
  stop : Int
  interactions : List String
  deriving DecidableEq, Repr

/-- Modelled from the spec: feature.Promoter constructor. -/
def Promoter (name : String) (start stop : Int) (interactions : List String) :
    Element :=
  { name := name, etype := "promoter", start := start, stop := stop,
    interactions := interactions, efficiency := [], readthrough := false,
    gene := "", covered := false, old_covered := false }

/-- Modelled from the spec: feature.Terminator constructor. -/
def Terminator (name : String) (start stop : Int)
    (efficiency : List (String × ℚ)) : Element :=
  { name := name, etype := "terminator", start := start, stop := stop,
    interactions := [], efficiency := efficiency, readthrough := false,
    gene := "", covered := false, old_covered := false }

namespace Element

/-- Modelled from the spec (4.2): cover() sets the covered state. -/
def cover (e : Element) : Element := { e with covered := true }

/-- Modelled from the spec (4.2): uncover() clears the covered state. -/
def uncover (e : Element) : Element := { e with covered := false }

/-- Modelled from the spec (4.2): save_state() copies the current state
into the shadow value. -/
def save_state (e : Element) : Element := { e with old_covered := e.covered }

/-- Modelled from the spec (4.2): is_covered() reads the covered state. -/
def is_covered (e : Element) : Bool := e.covered

/-- Modelled from the spec (3): an element interacts with a species when
the species is in its interaction table; for a terminator the table is
the per-species efficiency mapping. -/
def check_interaction (e : Element) (species : String) : Bool :=
  if e.etype = "terminator" then (e.efficiency.lookup species).isSome
  else e.interactions.contains species

end Element

namespace Mask

/-- Modelled from the spec (3): the mask recedes one unit at a time, its
start increasing. -/
def recede (m : Mask) : Mask := { m with start := m.start + 1 }

/-- Modelled from the spec (3): the pass-through species set determines
which species may push the mask. -/
def check_interaction (m : Mask) (species : String) : Bool :=
  m.interactions.contains species

end Mask

namespace Polymerase

/-- Modelled from the spec (4.5): move() advances the polymerase one
coordinate unit. -/
def move (p : Polymerase) : Polymerase :=
  { p with start := p.start + 1, stop := p.stop + 1 }

/-- Modelled from the spec (4.5): move_back() reverts a move, stepping
back one coordinate unit. -/
def move_back (p : Polymerase) : Polymerase :=
  { p with start := p.start - 1, stop := p.stop - 1 }

end Polymerase

/-- The state of one Polymer engine (polymer.py class Polymer): its
fixed bounds, the element sequence, the tracked polymerases with the
index-aligned weight sequence and running propensity total, the mask,
and the per-species free-element counts. -/
structure PolymerState where
  name : String
  start : Int
  stop : Int
  polymerases : List Polymerase
  elements : List Element
  mask : Mask
  prop_sum : ℚ
  prop_list : List ℚ
  uncovered : List (String × Int)
  deriving DecidableEq, Repr

/-- A notification fired through one of the eventsignal.Signal objects.
eventsignal.py is not in the sources; modelled from the spec (section 2:
synchronous observer registry): each operation returns the trace of its
firings in order.  The propensity-changed notification records the
polymerase sequence, weight sequence and running total a synchronous
handler observes at the instant of firing. -/
inductive Event where
  | coverNotif (species : String)
  | uncoverNotif (species : String)
  | moved
  | released (stop : Int)
  | terminated (polName : String) (gene : Option String)
  | propensityChanged (pols : List Polymerase) (plist : List ℚ) (psum : ℚ)
  | transcriptCreated (t : PolymerState)
  deriving DecidableEq, Repr

/-- Apply a feature mutation to the element at index i (Python mutates
the list entry in place through the alias). -/
def updElem (s : PolymerState) (i : Nat) (f : Element → Element) : PolymerState :=
  match s.elements[i]? with
  | some e => { s with elements := s.elements.set i (f e) }
  | none => s

/-- Write the moving polymerase object back into its slot of the
polymerase list: Python aliasing keeps the list entry and the local
variable the same object, so every mutation of the object is visible in
the list. -/
def syncPol (s : PolymerState) (i : Nat) (p : Polymerase) : PolymerState :=
  { s with polymerases := s.polymerases.set i p }

/-- Modelled from the spec (4.2): check_state() compares the current
covered state to the shadow and, only on a genuine transition, fires the
covered / uncovered notification to the owning engine, whose connected
handler (polymer.py cover_element / uncover_element) adjusts the
per-species free count. -/
def checkStateAt (s : PolymerState) (i : Nat) : PolymerState × List Event :=
  match s.elements[i]? with
  | none => (s, [])
  | some e =>
    if e.old_covered && !e.covered then
      ({ s with uncovered := dictAdjust s.uncovered e.name (· + 1) },
        [.uncoverNotif e.name])
    else if !e.old_covered && e.covered then
      ({ s with uncovered := dictAdjust s.uncovered e.name (· - 1) },
        [.coverNotif e.name])
    else (s, [])

/-- One fold step of Polymer.__init__ (polymer.py lines 53-66): connect
the element's signals (implicit in the trace model), cover and save
elements intersecting the mask, and build the per-species free counts
with Python dict semantics. -/
def initStep (mask : Mask) (acc : List Element × List (String × Int)) (e : Element) :
    List Element × List (String × Int) :=
  if spansIntersect e.start e.stop mask.start mask.stop then
    (acc.1 ++ [e.cover.save_state],
      if (acc.2.lookup e.name).isSome then acc.2 else acc.2 ++ [(e.name, 0)])
  else
    (acc.1 ++ [e],
      match acc.2.lookup e.name with
      | none => acc.2 ++ [(e.name, 1)]
      | some _ => dictAdjust acc.2 e.name (· + 1))

/-- polymer.py Polymer.__init__: construction of an engine state. -/
def initPolymer (name : String) (start stop : Int) (elements : List Element)
    (mask : Mask) : PolymerState :=
  let p := elements.foldl (initStep mask) ([], [])
  { name := name, start := start, stop := stop, polymerases := [],
    elements := p.1, mask := mask, prop_sum := 0, prop_list := [],
    uncovered := p.2 }

/-- polymer.py bind_polymerase lines 79-84: the free elements named
promoter, paired with their index in the element sequence. -/
def bindChoices (s : PolymerState) (promoter : String) : List (Nat × Element) :=
  s.elements.enum.filter fun q => q.2.name = promoter && !q.2.is_covered

/-- polymer.py _insert_polymerase lines 214-224: the insertion point is
the first position whose polymerase start exceeds the new start; when
none does, Python's loop arithmetic yields len (append), and 1 on an
empty list, which Python list.insert clamps to an append. -/
def insertPos (l : List Polymerase) (st : Int) : Nat :=
  match firstIdxWhere (fun old => decide (st < old.start)) l with
  | some j => j
  | none => if l.isEmpty then 1 else l.length

/-- polymer.py _insert_polymerase: Python's membership test uses object
identity, modelled here by value equality of the structure. -/
def insert_polymerase (s : PolymerState) (pol : Polymerase) :
    Except String PolymerState :=
  if s.polymerases.contains pol then
    .error "Polymerase is already present on polymer"
  else
    let ip := insertPos s.polymerases pol.start
    .ok { s with polymerases := pyInsert s.polymerases ip pol,
                 prop_list := pyInsert s.prop_list ip pol.speed }

/-- polymer.py Polymer.bind_polymerase (lines 68-129).  The Rat r is the
uniform draw consumed by weighted_choice over the equal-weight candidate
list.  Returns the new state, the bound polymerase object (whose
coordinates the method mutates) and the notification trace.  An error
models a raised exception: the operation did not complete. -/
def bind_polymerase (s : PolymerState) (pol : Polymerase) (promoter : String)
    (r : ℚ) : Except String (PolymerState × Polymerase × List Event) :=
  let choices := bindChoices s promoter
  if choices.isEmpty then .error "could not find free promoter to bind to"
  else
    match weightedChoiceIdx (choices.map fun _ => (1 : ℚ)) r with
    | none => .error "weighted_choice failed"
    | some k =>
      match choices[k]? with
      | none => .error "weighted_choice index out of range"
      | some je =>
        let j := je.1
        let e := je.2
        if !(e.check_interaction pol.name) then
          .error "Polymerase does not interact with promoter"
        else
          let pol' : Polymerase :=
            { pol with start := e.start, stop := e.start + pol.footprint - 1,
                       left_most_element := j }
          if e.stop < pol'.stop then
            .error "Polymerase footprint is larger than that of promoter"
          else if pol'.stop > s.mask.start then
            .error "Polymerase will overlap with mask upon promoter binding"
          else
            let e' := e.cover.save_state
            let s1 := { s with elements := s.elements.set j e' }
            match s1.uncovered.lookup e.name with
            | none => .error "KeyError"
            | some c =>
              let s2 := { s1 with uncovered := dictAdjust s1.uncovered e.name (· - 1) }
              if e'.covered != e'.old_covered then .error "AssertionError"
              else if !(c - 1 > -1) then .error "AssertionError"
              else
                match insert_polymerase s2 pol' with
                | .error msg => .error msg
                | .ok s3 =>
                  let s4 := { s3 with prop_sum := s3.prop_sum + pol'.speed }
                  .ok (s4, pol',
                    [.propensityChanged s4.polymerases s4.prop_list s4.prop_sum])

/-- polymer.py Polymer.shift_mask (lines 142-168): no-op when the mask
is exhausted, otherwise uncover the first element straddling the mask's
leading edge, recede the mask, re-cover the element if still
intersecting, then run its edge-check and save cycle.  shiftMaskAt is
the branch of shift_mask taken once the intersecting element index i
has been found. -/
def shiftMaskAt (s : PolymerState) (i : Nat) : PolymerState × List Event :=
  let s1 := updElem s i (fun e => e.save_state.uncover)
  let s2 := { s1 with mask := s1.mask.recede }
  let s3 :=
    match s2.elements[i]? with
    | some e =>
      if spansIntersect s2.mask.start s2.mask.stop e.start e.stop then
        updElem s2 i Element.cover
      else s2
    | none => s2
  let q := checkStateAt s3 i
  (updElem q.1 i Element.save_state, q.2)

def shift_mask (s : PolymerState) : PolymerState × List Event :=
  if s.mask.start ≥ s.mask.stop then (s, [])
  else
    match firstIdxWhere
        (fun e => spansIntersect s.mask.start s.mask.stop e.start e.stop)
        s.elements with
    | none => ({ s with mask := s.mask.recede }, [])
    | some i => shiftMaskAt s i

/-- Which terminate override runs: base Polymer, Genome (lines 453-460)
or Transcript (lines 513-520).  Spec section 9 models the inheritance
chain as a tagged variant. -/
inductive Variant where
  | generic | genome | transcript
  deriving DecidableEq, Repr

/-- The subclass-specific termination notification: the base Polymer
fires none, Genome fires terminated(pol.name), Transcript fires
terminated(pol.name, element_gene). -/
def terminationEvents (v : Variant) (polName : String) (gene : String) :
    List Event :=
  match v with
  | .generic => []
  | .genome => [.terminated polName none]
  | .transcript => [.terminated polName (some gene)]

/-- polymer.py terminate (lines 170-176, 453-460, 513-520): decrement
the running total by pol.speed, fire release(element_stop), look up the
polymerase's index, fire the variant's termination notification, fire
propensity-changed (while the polymerase and its weight are still in
their sequences), then delete both.  A failed index lookup is Python's
ValueError: the operation does not complete. -/
def terminate (v : Variant) (s : PolymerState) (pol : Polymerase)
    (element_stop : Int) (element_gene : String) :
    Except String (PolymerState × List Event) :=
  match firstIdxWhere (fun q => q == pol) s.polymerases with
  | none => .error "ValueError"
  | some i =>
    let s1 := { s with prop_sum := s.prop_sum - pol.speed }
    .ok ({ s1 with polymerases := removeAt s1.polymerases i,
                   prop_list := removeAt s1.prop_list i },
      [.released element_stop] ++ terminationEvents v pol.name element_gene ++
        [.propensityChanged s1.polymerases s1.prop_list s1.prop_sum])

/-- polymer.py _move_polymerase lines 261-268: scan forward from the
cached left-most index while the element start is at most the (pre-move)
polymerase stop, saving and temporarily uncovering every intersecting
element.  The fuel argument only bounds the recursion; it is always
called with more fuel than elements, so the fuel branch is dead. -/
def uncoverLoop : Nat → PolymerState → Polymerase → Nat →
    Except String PolymerState
  | 0, _, _, _ => .error "loop bound exceeded"
  | fuel + 1, s, p, idx =>
    match s.elements[idx]? with
    | none => .error "IndexError"
    | some e =>
      if e.start ≤ p.stop then
        let s' := if spansIntersect p.start p.stop e.start e.stop
                  then updElem s idx (fun e0 => e0.save_state.uncover) else s
        if idx + 1 ≥ s'.elements.length then .ok s'
        else uncoverLoop fuel s' p (idx + 1)
      else .ok s

/-- polymer.py Polymer._resolve_termination (lines 300-319): a
non-terminator, a non-interacting species or a readthrough terminator is
left untouched with no draw; otherwise one random value (rolls draws) is
compared to the species' termination efficiency; success uncovers the
element and terminates the polymerase at element.stop carrying
element.gene; failure sets readthrough.  Returns the state, the updated
draw counter and the fired notifications. -/
def resolve_termination (v : Variant) (s : PolymerState) (p : Polymerase)
    (eIdx : Nat) (rolls : Nat → ℚ) (draws : Nat) :
    Except String (PolymerState × Nat × List Event) :=
  match s.elements[eIdx]? with
  | none => .error "IndexError"
  | some e =>
    if e.etype ≠ "terminator" then .ok (s, draws, [])
    else if !(e.check_interaction p.name) then .ok (s, draws, [])
    else if e.readthrough then .ok (s, draws, [])
    else
      match e.efficiency.lookup p.name with
      | none => .error "KeyError"
      | some eff =>
        if rolls draws ≤ eff then
          match terminate v (updElem s eIdx Element.uncover) p e.stop e.gene with
          | .error msg => .error msg
          | .ok (s2, evs) => .ok (s2, draws + 1, evs)
        else
          .ok (updElem s eIdx (fun e0 => { e0 with readthrough := true }),
            draws + 1, [])

/-- polymer.py Polymer._resolve_collisions (lines 345-378): only the
polymerase at the next-higher index is examined; an overlap of
pol.stop - next.start beyond one is fatal, any other intersection steps
the polymerase back and flags a collision.  polIdx is the moving
polymerase's position, which Python recovers via object identity. -/
def resolve_collisions (s : PolymerState) (polIdx : Nat) (p : Polymerase) :
    Except String (PolymerState × Polymerase × Bool) :=
  if polIdx + 1 > s.polymerases.length - 1 then .ok (s, p, false)
  else
    match s.polymerases[polIdx + 1]? with
    | none => .ok (s, p, false)
    | some next =>
      if spansIntersect p.start p.stop next.start next.stop then
        if p.stop - next.start > 1 then
          .error "overlapping polymerase by more than one position"
        else
          let p' := p.move_back
          .ok (syncPol s polIdx p', p', true)
      else .ok (s, p, false)

/-- polymer.py Polymer._resolve_mask_collisions (lines 321-343): nothing
to do when the mask has left the polymer; an overlap beyond one unit is
fatal; a pass-through species pushes the mask via shift_mask (whose
notifications are returned), any other species steps back and flags the
collision. -/
def resolve_mask_collisions (s : PolymerState) (polIdx : Nat) (p : Polymerase) :
    Except String (PolymerState × Polymerase × Bool × List Event) :=
  if s.mask.start > s.stop then .ok (s, p, false, [])
  else if spansIntersect p.start p.stop s.mask.start s.mask.stop then
    if p.stop - s.mask.start > 1 then
      .error "overlapping polymer mask by more than one position"
    else if s.mask.check_interaction p.name then
      let q := shift_mask s
      .ok (q.1, p, false, q.2)
    else
      let p' := p.move_back
      .ok (syncPol s polIdx p', p', true, [])
  else .ok (s, p, false, [])

/-- polymer.py _move_polymerase lines 282-295: scan forward from the
cached index; every intersecting element resets the cached index once,
is covered and passed to _resolve_termination; every scanned element
runs check_state and save_state.  The moving polymerase object is
threaded as p (mutations mirrored into its list slot while it is still
tracked) and the draw counter as draws. -/
def coverLoop (v : Variant) : Nat → PolymerState → Polymerase → Nat → Bool →
    (Nat → ℚ) → Nat → Nat →
    Except String (PolymerState × Polymerase × Nat × List Event)
  | 0, _, _, _, _, _, _, _ => .error "loop bound exceeded"
  | fuel + 1, s, p, polIdx, reset, rolls, draws, idx =>
    match s.elements[idx]? with
    | none => .error "IndexError"
    | some e =>
      if e.start ≤ p.stop then
        if spansIntersect p.start p.stop e.start e.stop then
          let p' := if reset then { p with left_most_element := idx } else p
          let sA := if reset then syncPol s polIdx p' else s
          let sB := updElem sA idx Element.cover
          match resolve_termination v sB p' idx rolls draws with
          | .error msg => .error msg
          | .ok (sC, draws', evsT) =>
            let q := checkStateAt sC idx
            let sE := updElem q.1 idx Element.save_state
            if idx + 1 ≥ sE.elements.length then .ok (sE, p', draws', evsT ++ q.2)
            else
              match coverLoop v fuel sE p' polIdx false rolls draws' (idx + 1) with
              | .error msg => .error msg
              | .ok (sF, pF, dF, evsF) => .ok (sF, pF, dF, evsT ++ q.2 ++ evsF)
        else
          let q := checkStateAt s idx
          let sE := updElem q.1 idx Element.save_state
          if idx + 1 ≥ sE.elements.length then .ok (sE, p, draws, q.2)
          else
            match coverLoop v fuel sE p polIdx reset rolls draws (idx + 1) with
            | .error msg => .error msg
            | .ok (sF, pF, dF, evsF) => .ok (sF, pF, dF, q.2 ++ evsF)
      else .ok (s, p, draws, [])

/-- polymer.py Polymer._move_polymerase (lines 242-298): uncover the
vacated elements, advance the polymerase, resolve polymerase and mask
collisions, fire moved only when neither collision occurred, re-cover
and resolve terminations along the new footprint, and finally terminate
at the polymer's stop when the polymerase has run off the end.  The
moving polymerase is addressed by its index polIdx (Python object
identity); the returned Polymerase is the final state of the moved
object. -/
def move_polymerase (v : Variant) (s : PolymerState) (polIdx : Nat)
    (rolls : Nat → ℚ) : Except String (PolymerState × Polymerase × List Event) :=
  match s.polymerases[polIdx]? with
  | none => .error "Attempting to move unbound polymerase"
  | some p0 =>
    match uncoverLoop (s.elements.length + 1) s p0 p0.left_most_element with
    | .error msg => .error msg
    | .ok s1 =>
      let p1 := p0.move
      let s2 := syncPol s1 polIdx p1
      match resolve_collisions s2 polIdx p1 with
      | .error msg => .error msg
      | .ok (s3, p2, polCollision) =>
        match resolve_mask_collisions s3 polIdx p2 with
        | .error msg => .error msg
        | .ok (s4, p3, maskCollision, evsM) =>
          let evsMoved := if !polCollision && !maskCollision
                          then [Event.moved] else []
          match coverLoop v (s4.elements.length + 1) s4 p3 polIdx true rolls 0
              p3.left_most_element with
          | .error msg => .error msg
          | .ok (s5, p4, _, evsL) =>
            if p4.stop > s5.stop then
              match terminate v s5 p4 s5.stop "" with
              | .error msg => .error msg
              | .ok (s6, evsT) => .ok (s6, p4, evsM ++ evsMoved ++ evsL ++ evsT)
            else .ok (s5, p4, evsM ++ evsMoved ++ evsL)

/-- polymer.py Polymer.execute (lines 131-140) together with
_choose_polymerase (lines 228-240): fail on zero propensity or an empty
weight list, select the moving polymerase by propensity-weighted choice
on the draw r, and move it. -/
def execute (v : Variant) (s : PolymerState) (r : ℚ) (rolls : Nat → ℚ) :
    Except String (PolymerState × List Event) :=
  if s.prop_sum = 0 then .error "reaction propensity of 0"
  else if s.prop_list.isEmpty then .error "no active polymerases"
  else
    match weightedChoiceIdx s.prop_list r with
    | none => .error "weighted_choice failed"
    | some i =>
      match move_polymerase v s i rolls with
      | .error msg => .error msg
      | .ok (s', _, evs) => .ok (s', evs)

/-- One entry of the Genome's static transcript template (polymer.py
_build_transcript): gene name, interval, and ribosome-binding-site
offset. -/
structure TemplateGene where
  name : String
  start : Int
  stop : Int
  rbs : Int
  deriving DecidableEq, Repr

/-- polymer.py _build_transcript lines 476-490: every template gene
fully contained in [start, stop] yields a ribosome-binding-site
promoter and a stop-codon terminator with termination efficiency 1.0
for the ribosome, tagged with the gene name. -/
def templateElements (template : List TemplateGene) (start stop : Int) :
    List Element :=
  template.flatMap fun g =>
    if g.start ≥ start && g.stop ≤ stop then
      [Promoter "rbs" (g.start + g.rbs) g.start ["ribosome"],
       { Terminator "tstop" (g.stop - 1) g.stop [("ribosome", 1)] with
         gene := g.name }]
    else []

/-- polymer.py Genome._build_transcript (lines 462-501): assert the
bounds, build the element pairs, fail when no gene qualifies, and
construct the Transcript engine with the genome's own bounds and a mask
spanning [start, stop] with an empty pass-through set. -/
def build_transcript (gStart gStop : Int) (template : List TemplateGene)
    (start stop : Int) : Except String PolymerState :=
  if !(start ≥ 0) then .error "AssertionError"
  else if !(stop > 0) then .error "AssertionError"
  else
    let elems := templateElements template start stop
    if elems.isEmpty then
      .error "Attempting to create a transcript with no elements"
    else
      .ok (initPolymer "rna" gStart gStop elems
        { name := "mask", start := start, stop := stop, interactions := [] })

/-- A connect() call made by Genome.bind_polymerase: the transcript's
shift_mask wired to the polymerase's move signal, and the transcript's
release wired to the polymerase's release signal. -/
inductive Wiring where
  | movedShiftMask | releaseRelease
  deriving DecidableEq, Repr

/-- polymer.py Genome.bind_polymerase (lines 435-451): bind exactly as
the parent Polymer, build the transcript from the binding coordinate to
the genome stop, connect the polymerase's move and release signals to
the transcript, and fire the transcript-created notification carrying
the new Transcript. -/
def genome_bind_polymerase (s : PolymerState) (template : List TemplateGene)
    (pol : Polymerase) (promoter : String) (r : ℚ) :
    Except String (PolymerState × PolymerState × List Wiring × List Event) :=
  match bind_polymerase s pol promoter r with
  | .error msg => .error msg
  | .ok (s', pol', evs) =>
    match build_transcript s'.start s'.stop template pol'.start s'.stop with
    | .error msg => .error msg
    | .ok t =>
      .ok (s', t, [Wiring.movedShiftMask, Wiring.releaseRelease],
        evs ++ [Event.transcriptCreated t])

/-- polymer.py Transcript.release (lines 522-531): jump = stop -
mask.start, then mask.start += jump. -/
def transcript_release (s : PolymerState) (stop : Int) : PolymerState :=
  let jump := stop - s.mask.start
  { s with mask := { s.mask with start := s.mask.start + jump } }

/-! ### Specification-level definitions used by the claims -/

/-- The coupled bookkeeping invariant of the engine: the weight sequence
is the speed of the polymerase at the same index, and the running total
is its sum.  Its second half is the invariant of claim C1. -/
def propInv (s : PolymerState) : Prop :=
  s.prop_list = s.polymerases.map Polymerase.speed ∧
    s.prop_sum = s.prop_list.sum

/-- Positionwise monotonicity of the terminator readthrough flag between
two engine states: an element whose flag is set keeps it set. -/
def rtPreserved (s s' : PolymerState) : Prop :=
  ∀ (k : Nat) (e e' : Element), s.elements[k]? = some e →
    s'.elements[k]? = some e' → e.readthrough = true → e'.readthrough = true

/-- The engine states of claim C1: constructed by Polymer.__init__ and
then evolved by any sequence of completed public operations
(bind_polymerase, execute, shift_mask, terminate), with arbitrary
random draws and under every terminate variant. -/
inductive EngineReachable : PolymerState → Prop where
  | construction (name : String) (start stop : Int) (elements : List Element)
      (mask : Mask) : EngineReachable (initPolymer name start stop elements mask)
  | bind (s : PolymerState) (pol : Polymerase) (promoter : String) (r : ℚ)
      (s' : PolymerState) (pol' : Polymerase) (evs : List Event) :
      EngineReachable s →
      bind_polymerase s pol promoter r = .ok (s', pol', evs) →
      EngineReachable s'
  | exec (v : Variant) (s : PolymerState) (r : ℚ) (rolls : Nat → ℚ)
      (s' : PolymerState) (evs : List Event) :
      EngineReachable s → execute v s r rolls = .ok (s', evs) →
      EngineReachable s'
  | shift (s : PolymerState) : EngineReachable s →
      EngineReachable (shift_mask s).1
  | term (v : Variant) (s : PolymerState) (pol : Polymerase) (a : Int)
      (g : String) (s' : PolymerState) (evs : List Event) :
      EngineReachable s → terminate v s pol a g = .ok (s', evs) →
      EngineReachable s'

/-- Does a notification trace contain a termination notification? -/
def hasTerminatedEvent (evs : List Event) : Bool :=
  evs.any fun ev => match ev with
    | .terminated _ _ => true
    | _ => false

/-- The notification trace of a completed terminate call. -/
def termEventsOf (r : Except String (PolymerState × List Event)) : List Event :=
  match r with
  | .ok x => x.2
  | .error _ => []

/-- Did a terminate call complete? -/
def isOkPE (r : Except String (PolymerState × List Event)) : Bool :=
  match r with
  | .ok _ => true
  | .error _ => false

/-- Did a bind_polymerase or move_polymerase call complete? -/
def isOkB (r : Except String (PolymerState × Polymerase × List Event)) : Bool :=
  match r with
  | .ok _ => true
  | .error _ => false

/-- The notification trace of a completed move_polymerase call. -/
def moveEventsOf (r : Except String (PolymerState × Polymerase × List Event)) :
    List Event :=
  match r with
  | .ok x => x.2.2
  | .error _ => []

/-- The covered flag of element k after a completed move_polymerase call. -/
def elemCoveredAt (r : Except String (PolymerState × Polymerase × List Event))
    (k : Nat) : Option Bool :=
  match r with
  | .ok x => (x.1.elements[k]?).map Element.covered
  | .error _ => none

/-- A degenerate random stream: every draw is 0 (certain success against
any positive termination efficiency). -/
def zeroRolls : Nat → ℚ := fun _ => 0

/-- A random stream whose every draw is 1. -/
def oneRolls : Nat → ℚ := fun _ => 1

/-! #### Concrete example states used by counterexamples and witnesses -/

/-- A mask far beyond the polymer stop: effectively no mask. -/
def exMaskFar : Mask := { name := "mask", start := 200, stop := 300, interactions := [] }

/-- The terminator of the running example, interacting with rnapol at
efficiency 1 and labelled with gene g1. -/
def exTermElem : Element :=
  { Terminator "myterm" 50 55 [("rnapol", 1)] with gene := "g1" }

/-- A polymerase of footprint 10 sitting at [40, 49], one step short of
the terminator. -/
def exPol : Polymerase :=
  { name := "rnapol", footprint := 10, speed := 1, start := 40, stop := 49,
    left_most_element := 0 }

/-- The running example engine state: one terminator, one tracked
polymerase, consistent weight bookkeeping. -/
def exS : PolymerState :=
  { initPolymer "t" 1 100 [exTermElem] exMaskFar with
    polymerases := [exPol], prop_list := [1], prop_sum := 1 }

/-- A spent mask whose start still carries the coordinate 15: the mask
interval is empty (stop < start), as after full mask consumption, so
construction leaves the promoter free. -/
def c2MaskSpent : Mask := { name := "mask", start := 15, stop := 4, interactions := [] }

/-- The promoter of the C2 example, spanning [5, 15]. -/
def c2PromElem : Element := Promoter "p1" 5 15 ["rnapol"]

/-- C2 engine state: free promoter [5, 15] and mask start 15. -/
def c2S : PolymerState := initPolymer "poly" 1 100 [c2PromElem] c2MaskSpent

/-- A polymerase of footprint 11: binding at 5 puts its stop at 15. -/
def c2Pol : Polymerase :=
  { name := "rnapol", footprint := 11, speed := 1, start := 0, stop := 0,
    left_most_element := 0 }

/-- Variant of the C2 mask with start 14: binding at 5 with footprint 11
strictly passes it. -/
def c2MaskB : Mask := { name := "mask", start := 14, stop := 4, interactions := [] }

/-- C2 witness state for the amended guard. -/
def c2SB : PolymerState := initPolymer "poly" 1 100 [c2PromElem] c2MaskB

/-- A readthrough terminator: its flag is already set. -/
def c4TermElem : Element :=
  { Terminator "myterm" 50 55 [("rnapol", 1)] with gene := "g1", readthrough := true }

/-- C4 example state: the terminator is permanently inert. -/
def c4S : PolymerState :=
  { initPolymer "t" 1 100 [c4TermElem] exMaskFar with
    polymerases := [exPol], prop_list := [1], prop_sum := 1 }

/-- Trailing polymerase at [10, 14] for the collision examples. -/
def c5P0 : Polymerase :=
  { name := "a", footprint := 5, speed := 1, start := 10, stop := 14,
    left_most_element := 0 }

/-- Leading polymerase at [14, 18]: after the trailing one moves, the
overlap pol.stop - next.start is exactly one. -/
def c5P1 : Polymerase :=
  { name := "b", footprint := 5, speed := 1, start := 14, stop := 18,
    left_most_element := 0 }

/-- C5 example state: two polymerases, one promoter out of the way. -/
def c5S : PolymerState :=
  { initPolymer "t" 1 100 [Promoter "p" 2 4 ["a"]] exMaskFar with
    polymerases := [c5P0, c5P1], prop_list := [1, 1], prop_sum := 2 }

/-- A polymerase at [41, 50] on a polymer with stop 50: one move runs it
off the end. -/
def c7Pol : Polymerase :=
  { name := "rnapol", footprint := 10, speed := 2, start := 41, stop := 50,
    left_most_element := 0 }

/-- C7 example state: no terminator anywhere near the end. -/
def c7S : PolymerState :=
  { initPolymer "t" 1 50 [Promoter "p" 2 4 ["rnapol"]] exMaskFar with
    polymerases := [c7Pol], prop_list := [2], prop_sum := 2 }

/-- The state produced by the C7 run-off move. -/
def c7ResS : PolymerState :=
  match move_polymerase .generic c7S 0 zeroRolls with
  | .ok x => x.1
  | .error _ => c7S

/-- The final polymerase object of the C7 run-off move. -/
def c7ResP : Polymerase :=
  match move_polymerase .generic c7S 0 zeroRolls with
  | .ok x => x.2.1
  | .error _ => c7Pol

/-- The notification trace of the C7 run-off move. -/
def c7ResEvs : List Event :=
  match move_polymerase .generic c7S 0 zeroRolls with
  | .ok x => x.2.2
  | .error _ => []

/-- The state after terminating the example polymerase (C10). -/
def c10ResS : PolymerState :=
  match terminate .generic exS exPol 49 "" with
  | .ok x => x.1
  | .error _ => exS

/-- The notification trace of that terminate call (C10). -/
def c10ResEvs : List Event :=
  match terminate .generic exS exPol 49 "" with
  | .ok x => x.2
  | .error _ => []

/-- The template of the C9 example: one gene on [30, 60] whose
ribosome-binding site starts 10 units upstream. -/
def gTemplate : List TemplateGene :=
  [{ name := "geneX", start := 30, stop := 60, rbs := -10 }]

/-- C9 genome state: a free promoter [5, 15] ahead of the mask. -/
def gS : PolymerState :=
  initPolymer "genome" 1 100 [Promoter "p1" 5 15 ["rnapol"]]
    { name := "mask", start := 16, stop := 100, interactions := [] }

/-- The polymerase bound in the C9 example. -/
def gPol : Polymerase :=
  { name := "rnapol", footprint := 11, speed := 1, start := 0, stop := 0,
    left_most_element := 0 }

/-- The polymerase object as mutated by the C9 binding: placed on the
promoter [5, 15]. -/
def gBoundP : Polymerase :=
  { name := "rnapol", footprint := 11, speed := 1, start := 5, stop := 15,
    left_most_element := 0 }

/-- The genome state after the C9 binding, written out explicitly. -/
def gBoundS : PolymerState :=
  { name := "genome", start := 1, stop := 100, polymerases := [gBoundP],
    elements := [{ Promoter "p1" 5 15 ["rnapol"] with covered := true, old_covered := true }],
    mask := { name := "mask", start := 16, stop := 100, interactions := [] },
    prop_sum := 1, prop_list := [1], uncovered := [("p1", 0)] }

/-- The notification trace of the C9 base binding. -/
def gBoundEvs : List Event := [.propensityChanged [gBoundP] [1] 1]

/-- The state after the C5 reverted move. -/
def c5ResS : PolymerState :=
  match move_polymerase .generic c5S 0 zeroRolls with
  | .ok x => x.1
  | .error _ => c5S

/-- The final polymerase object of the C5 reverted move. -/
def c5ResP : Polymerase :=
  match move_polymerase .generic c5S 0 zeroRolls with
  | .ok x => x.2.1
  | .error _ => c5P0

/-- The notification trace of the C5 reverted move. -/
def c5ResEvs : List Event :=
  match move_polymerase .generic c5S 0 zeroRolls with
  | .ok x => x.2.2
  | .error _ => []

/-! ### Helper lemmas about the list primitives -/

theorem firstIdxWhere_spec {α : Type} (p : α → Bool) :
    ∀ (l : List α) (i : Nat), firstIdxWhere p l = some i →
      ∃ x, l[i]? = some x ∧ p x = true := by
  intro l
  induction l with
  | nil => intro i h; simp [firstIdxWhere] at h
  | cons a t ih =>
    intro i h
    by_cases hp : p a
    · simp [firstIdxWhere, hp] at h
      subst h
      exact ⟨a, by simp, hp⟩
    · simp [firstIdxWhere, hp] at h
      obtain ⟨j, hj, rfl⟩ := h
      obtain ⟨x, hx, hpx⟩ := ih j hj
      exact ⟨x, by simpa using hx, hpx⟩

theorem mem_of_getOpt {α : Type} {l : List α} {i : Nat} {x : α}
    (h : l[i]? = some x) : x ∈ l := by
  rw [List.getElem?_eq_some] at h
  obtain ⟨hlt, rfl⟩ := h
  exact List.getElem_mem hlt

theorem removeAt_map {α β : Type} (f : α → β) :
    ∀ (l : List α) (i : Nat), (removeAt l i).map f = removeAt (l.map f) i := by
  intro l
  induction l with
  | nil => intro i; cases i <;> rfl
  | cons a t ih => intro i; cases i with
    | zero => rfl
    | succ n => simpa [removeAt] using ih n

theorem sum_removeAt : ∀ (l : List ℚ) (i : Nat) (x : ℚ), l[i]? = some x →
    (removeAt l i).sum + x = l.sum := by
  intro l
  induction l with
  | nil => intro i x h; simp at h
  | cons a t ih => intro i x h; cases i with
    | zero =>
      simp at h
      subst h
      simp [removeAt]
      ring
    | succ n =>
      simp at h
      have := ih n x h
      simp [removeAt]
      linarith

theorem length_removeAt {α : Type} :
    ∀ (l : List α) (i : Nat) (x : α), l[i]? = some x →
      (removeAt l i).length + 1 = l.length := by
  intro l
  induction l with
  | nil => intro i x h; simp at h
  | cons a t ih => intro i x h; cases i with
    | zero => simp [removeAt]
    | succ n =>
      simp at h
      have := ih n x h
      simp [removeAt]
      omega

theorem pyInsert_map {α β : Type} (f : α → β) :
    ∀ (l : List α) (i : Nat) (x : α),
      (pyInsert l i x).map f = pyInsert (l.map f) i (f x) := by
  intro l
  induction l with
  | nil => intro i x; cases i <;> rfl
  | cons a t ih => intro i x; cases i with
    | zero => rfl
    | succ n => simpa [pyInsert] using ih n x

theorem pyInsert_sum : ∀ (l : List ℚ) (i : Nat) (x : ℚ),
    (pyInsert l i x).sum = x + l.sum := by
  intro l
  induction l with
  | nil => intro i x; cases i <;> simp [pyInsert]
  | cons a t ih => intro i x; cases i with
    | zero => simp [pyInsert]
    | succ n =>
      simp [pyInsert, ih n x]
      ring

theorem set_map_of_eq {α β : Type} (f : α → β) :
    ∀ (l : List α) (i : Nat) (x y : α), l[i]? = some y → f x = f y →
      (l.set i x).map f = l.map f := by
  intro l
  induction l with
  | nil => intro i x y h _; simp at h
  | cons a t ih => intro i x y h hf; cases i with
    | zero =>
      simp at h
      subst h
      simp [hf]
    | succ n =>
      simp at h
      simpa using ih n x y h hf

/-! ### Frame lemmas for the state helpers -/

@[simp] theorem updElem_polymerases (s : PolymerState) (i : Nat) (f : Element → Element) :
    (updElem s i f).polymerases = s.polymerases := by
  unfold updElem; cases h : s.elements[i]? <;> rfl

@[simp] theorem updElem_prop_list (s : PolymerState) (i : Nat) (f : Element → Element) :
    (updElem s i f).prop_list = s.prop_list := by
  unfold updElem; cases h : s.elements[i]? <;> rfl

@[simp] theorem updElem_prop_sum (s : PolymerState) (i : Nat) (f : Element → Element) :
    (updElem s i f).prop_sum = s.prop_sum := by
  unfold updElem; cases h : s.elements[i]? <;> rfl

@[simp] theorem updElem_stop (s : PolymerState) (i : Nat) (f : Element → Element) :
    (updElem s i f).stop = s.stop := by
  unfold updElem; cases h : s.elements[i]? <;> rfl

@[simp] theorem updElem_mask (s : PolymerState) (i : Nat) (f : Element → Element) :
    (updElem s i f).mask = s.mask := by
  unfold updElem; cases h : s.elements[i]? <;> rfl

@[simp] theorem updElem_elements_length (s : PolymerState) (i : Nat) (f : Element → Element) :
    (updElem s i f).elements.length = s.elements.length := by
  unfold updElem; cases h : s.elements[i]? <;> simp

@[simp] theorem syncPol_elements (s : PolymerState) (i : Nat) (p : Polymerase) :
    (syncPol s i p).elements = s.elements := rfl

@[simp] theorem syncPol_prop_list (s : PolymerState) (i : Nat) (p : Polymerase) :
    (syncPol s i p).prop_list = s.prop_list := rfl

@[simp] theorem syncPol_prop_sum (s : PolymerState) (i : Nat) (p : Polymerase) :
    (syncPol s i p).prop_sum = s.prop_sum := rfl

@[simp] theorem syncPol_stop (s : PolymerState) (i : Nat) (p : Polymerase) :
    (syncPol s i p).stop = s.stop := rfl

@[simp] theorem syncPol_mask (s : PolymerState) (i : Nat) (p : Polymerase) :
    (syncPol s i p).mask = s.mask := rfl

@[simp] theorem syncPol_polymerases_length (s : PolymerState) (i : Nat) (p : Polymerase) :
    (syncPol s i p).polymerases.length = s.polymerases.length := by
  simp [syncPol]

@[simp] theorem checkStateAt_elements (s : PolymerState) (i : Nat) :
    (checkStateAt s i).1.elements = s.elements := by
  unfold checkStateAt
  cases h : s.elements[i]? with
  | none => rfl
  | some e => by_cases h1 : e.old_covered && !e.covered <;>
      by_cases h2 : !e.old_covered && e.covered <;> simp [h1, h2]

@[simp] theorem checkStateAt_polymerases (s : PolymerState) (i : Nat) :
    (checkStateAt s i).1.polymerases = s.polymerases := by
  unfold checkStateAt
  cases h : s.elements[i]? with
  | none => rfl
  | some e => by_cases h1 : e.old_covered && !e.covered <;>
      by_cases h2 : !e.old_covered && e.covered <;> simp [h1, h2]

@[simp] theorem checkStateAt_prop_list (s : PolymerState) (i : Nat) :
    (checkStateAt s i).1.prop_list = s.prop_list := by
  unfold checkStateAt
  cases h : s.elements[i]? with
  | none => rfl
  | some e => by_cases h1 : e.old_covered && !e.covered <;>
      by_cases h2 : !e.old_covered && e.covered <;> simp [h1, h2]

@[simp] theorem checkStateAt_prop_sum (s : PolymerState) (i : Nat) :
    (checkStateAt s i).1.prop_sum = s.prop_sum := by
  unfold checkStateAt
  cases h : s.elements[i]? with
  | none => rfl
  | some e => by_cases h1 : e.old_covered && !e.covered <;>
      by_cases h2 : !e.old_covered && e.covered <;> simp [h1, h2]

@[simp] theorem checkStateAt_stop (s : PolymerState) (i : Nat) :
    (checkStateAt s i).1.stop = s.stop := by
  unfold checkStateAt
  cases h : s.elements[i]? with
  | none => rfl
  | some e => by_cases h1 : e.old_covered && !e.covered <;>
      by_cases h2 : !e.old_covered && e.covered <;> simp [h1, h2]

@[simp] theorem checkStateAt_mask (s : PolymerState) (i : Nat) :
    (checkStateAt s i).1.mask = s.mask := by
  unfold checkStateAt
  cases h : s.elements[i]? with
  | none => rfl
  | some e => by_cases h1 : e.old_covered && !e.covered <;>
      by_cases h2 : !e.old_covered && e.covered <;> simp [h1, h2]

theorem checkStateAt_events (s : PolymerState) (i : Nat) :
    (checkStateAt s i).2 = [] ∨
      (∃ n, (checkStateAt s i).2 = [Event.uncoverNotif n]) ∨
      (∃ n, (checkStateAt s i).2 = [Event.coverNotif n]) := by
  unfold checkStateAt
  cases h : s.elements[i]? with
  | none => exact Or.inl rfl
  | some e =>
    by_cases h1 : e.old_covered && !e.covered
    · exact Or.inr (Or.inl ⟨e.name, by simp [h1]⟩)
    · by_cases h2 : !e.old_covered && e.covered
      · exact Or.inr (Or.inr ⟨e.name, by simp [h1, h2]⟩)
      · exact Or.inl (by simp [h1, h2])

/-! ### terminate: exact characterization -/

theorem terminate_ok_iff (v : Variant) (s : PolymerState) (pol : Polymerase)
    (a : Int) (g : String) (s' : PolymerState) (evs : List Event) :
    terminate v s pol a g = .ok (s', evs) ↔
      ∃ i, firstIdxWhere (fun q => q == pol) s.polymerases = some i ∧
        s' = { s with prop_sum := s.prop_sum - pol.speed,
                      polymerases := removeAt s.polymerases i,
                      prop_list := removeAt s.prop_list i } ∧
        evs = [.released a] ++ terminationEvents v pol.name g ++
          [.propensityChanged s.polymerases s.prop_list (s.prop_sum - pol.speed)] := by
  unfold terminate
  cases h : firstIdxWhere (fun q => q == pol) s.polymerases with
  | none => simp [h]
  | some i =>
    simp only [h]
    constructor
    · intro he
      refine ⟨i, rfl, ?_, ?_⟩
      · cases he; rfl
      · cases he; rfl
    · rintro ⟨j, hj, hs, hevs⟩
      have : j = i := (Option.some_injective _ hj).symm
      subst this
      subst hs
      subst hevs
      rfl

theorem terminate_propInv {v : Variant} {s : PolymerState} {pol : Polymerase}
    {a : Int} {g : String} {s' : PolymerState} {evs : List Event}
    (hInv : propInv s) (h : terminate v s pol a g = .ok (s', evs)) :
    propInv s' := by
  rw [terminate_ok_iff] at h
  obtain ⟨i, hidx, rfl, _⟩ := h
  obtain ⟨x, hx, hpx⟩ := firstIdxWhere_spec _ _ _ hidx
  have hxpol : x = pol := by simpa using hpx
  subst hxpol
  obtain ⟨h1, h2⟩ := hInv
  constructor
  · simp only
    rw [h1, ← removeAt_map]
  · simp only
    have hx' : s.prop_list[i]? = some x.speed := by
      rw [h1, List.getElem?_map, hx]; rfl
    have := sum_removeAt s.prop_list i x.speed hx'
    rw [h2]
    linarith

theorem terminate_elements {v : Variant} {s : PolymerState} {pol : Polymerase}
    {a : Int} {g : String} {s' : PolymerState} {evs : List Event}
    (h : terminate v s pol a g = .ok (s', evs)) :
    s'.elements = s.elements ∧ s'.stop = s.stop ∧ s'.mask = s.mask := by
  rw [terminate_ok_iff] at h
  obtain ⟨i, _, rfl, _⟩ := h
  exact ⟨rfl, rfl, rfl⟩

theorem terminate_length {v : Variant} {s : PolymerState} {pol : Polymerase}
    {a : Int} {g : String} {s' : PolymerState} {evs : List Event}
    (h : terminate v s pol a g = .ok (s', evs)) :
    s'.polymerases.length + 1 = s.polymerases.length := by
  rw [terminate_ok_iff] at h
  obtain ⟨i, hidx, rfl, _⟩ := h
  obtain ⟨x, hx, _⟩ := firstIdxWhere_spec _ _ _ hidx
  simpa using length_removeAt _ _ _ hx

theorem terminate_noMoved {v : Variant} {s : PolymerState} {pol : Polymerase}
    {a : Int} {g : String} {s' : PolymerState} {evs : List Event}
    (h : terminate v s pol a g = .ok (s', evs)) : Event.moved ∉ evs := by
  rw [terminate_ok_iff] at h
  obtain ⟨i, _, _, rfl⟩ := h
  cases v <;> simp [terminationEvents]

/-! ### Readthrough monotonicity machinery (claim C4) -/

theorem rtPreserved_of_eq {s s' : PolymerState}
    (h : s'.elements = s.elements) : rtPreserved s s' := by
  intro k e e' he he' hrt
  rw [h, he] at he'
  cases he'
  exact hrt

theorem rtPreserved_rfl (s : PolymerState) : rtPreserved s s :=
  rtPreserved_of_eq rfl

theorem rtPreserved_trans {s s' s'' : PolymerState}
    (h1 : rtPreserved s s') (h2 : rtPreserved s' s'')
    (hlen : s'.elements.length = s.elements.length) :
    rtPreserved s s'' := by
  intro k e e'' he he'' hrt
  have hk : k < s.elements.length := (List.getElem?_eq_some.mp he).1
  have hk2 : k < s'.elements.length := by omega
  have hmid := List.getElem?_eq_getElem hk2
  exact h2 k _ e'' hmid he'' (h1 k e _ he hmid hrt)

theorem updElem_rt {s : PolymerState} {i : Nat} {f : Element → Element}
    (hf : ∀ e, e.readthrough = true → (f e).readthrough = true) :
    rtPreserved s (updElem s i f) := by
  intro k e e' he he' hrt
  unfold updElem at he'
  cases h0 : s.elements[i]? with
  | none => rw [h0] at he'; simp at he'; rw [he] at he'; cases he'; exact hrt
  | some e0 =>
    rw [h0] at he'
    simp only [List.getElem?_set] at he'
    by_cases hik : i = k
    · subst hik
      rw [he] at h0
      cases h0
      have hk : i < s.elements.length := (List.getElem?_eq_some.mp he).1
      simp [hk] at he'
      subst he'
      exact hf _ hrt
    · simp [hik] at he'
      rw [he] at he'
      cases he'
      exact hrt

theorem updElem_rt_exact {s : PolymerState} {i : Nat} {f : Element → Element}
    (hf : ∀ e, (f e).readthrough = e.readthrough) :
    rtPreserved s (updElem s i f) :=
  updElem_rt (fun e h => by rw [hf e]; exact h)

/-! ### shift_mask: frame, readthrough, events -/

theorem shiftMaskAt_main (s : PolymerState) (i : Nat) :
    (shiftMaskAt s i).1.polymerases = s.polymerases ∧
    (shiftMaskAt s i).1.prop_list = s.prop_list ∧
    (shiftMaskAt s i).1.prop_sum = s.prop_sum ∧
    (shiftMaskAt s i).1.stop = s.stop ∧
    (shiftMaskAt s i).1.elements.length = s.elements.length ∧
    rtPreserved s (shiftMaskAt s i).1 ∧
    Event.moved ∉ (shiftMaskAt s i).2 := by
  have step : ∀ (s2 : PolymerState),
      s2.polymerases = s.polymerases → s2.prop_list = s.prop_list →
      s2.prop_sum = s.prop_sum → s2.stop = s.stop →
      s2.elements.length = s.elements.length → rtPreserved s s2 →
      ∀ (s3 : PolymerState), (s3 = updElem s2 i Element.cover ∨ s3 = s2) →
        (updElem (checkStateAt s3 i).1 i Element.save_state).polymerases
            = s.polymerases ∧
        (updElem (checkStateAt s3 i).1 i Element.save_state).prop_list
            = s.prop_list ∧
        (updElem (checkStateAt s3 i).1 i Element.save_state).prop_sum
            = s.prop_sum ∧
        (updElem (checkStateAt s3 i).1 i Element.save_state).stop = s.stop ∧
        (updElem (checkStateAt s3 i).1 i Element.save_state).elements.length
            = s.elements.length ∧
        rtPreserved s (updElem (checkStateAt s3 i).1 i Element.save_state) ∧
        Event.moved ∉ (checkStateAt s3 i).2 := by
    intro s2 f1 f2 f3 f4 f5 f6 s3 hs3
    have g1 : s3.polymerases = s2.polymerases := by
      rcases hs3 with rfl | rfl <;> simp
    have g2 : s3.prop_list = s2.prop_list := by
      rcases hs3 with rfl | rfl <;> simp
    have g3 : s3.prop_sum = s2.prop_sum := by
      rcases hs3 with rfl | rfl <;> simp
    have g4 : s3.stop = s2.stop := by
      rcases hs3 with rfl | rfl <;> simp
    have g5 : s3.elements.length = s2.elements.length := by
      rcases hs3 with rfl | rfl <;> simp
    have g6 : rtPreserved s2 s3 := by
      rcases hs3 with rfl | rfl
      · exact updElem_rt_exact (fun e0 => rfl)
      · exact rtPreserved_rfl _
    have hcs : (checkStateAt s3 i).1.elements = s3.elements :=
      checkStateAt_elements s3 i
    refine ⟨?_, ?_, ?_, ?_, ?_, ?_, ?_⟩
    · simp [checkStateAt_polymerases, g1, f1]
    · simp [checkStateAt_prop_list, g2, f2]
    · simp [checkStateAt_prop_sum, g3, f3]
    · simp [checkStateAt_stop, g4, f4]
    · simp only [updElem_elements_length]
      rw [hcs, g5, f5]
    · have hA : rtPreserved s s3 := rtPreserved_trans f6 g6 f5
      have hB : rtPreserved s (checkStateAt s3 i).1 :=
        rtPreserved_trans hA (rtPreserved_of_eq hcs) (by rw [g5, f5])
      refine rtPreserved_trans hB (updElem_rt_exact (fun e0 => rfl)) ?_
      rw [hcs, g5, f5]
    · rcases checkStateAt_events s3 i with h | ⟨n, h⟩ | ⟨n, h⟩ <;> simp [h]
  unfold shiftMaskAt
  simp only []
  have f6 : rtPreserved s (updElem s i (fun e => e.save_state.uncover)) :=
    updElem_rt_exact (fun e0 => rfl)
  have hs2rt : rtPreserved s
      ({ updElem s i (fun e => e.save_state.uncover) with
         mask := (updElem s i (fun e => e.save_state.uncover)).mask.recede }
           : PolymerState) :=
    rtPreserved_trans f6 (rtPreserved_of_eq rfl) (by simp)
  cases he : ({ updElem s i (fun e => e.save_state.uncover) with
      mask := (updElem s i (fun e => e.save_state.uncover)).mask.recede }
        : PolymerState).elements[i]? with
  | none =>
    simp only [he]
    exact step _ (by simp) (by simp) (by simp) (by simp) (by simp) hs2rt _ (Or.inr rfl)
  | some e =>
    simp only [he]
    by_cases hc : spansIntersect
        ({ updElem s i (fun e => e.save_state.uncover) with
           mask := (updElem s i (fun e => e.save_state.uncover)).mask.recede }
             : PolymerState).mask.start
        ({ updElem s i (fun e => e.save_state.uncover) with
           mask := (updElem s i (fun e => e.save_state.uncover)).mask.recede }
             : PolymerState).mask.stop e.start e.stop
    · rw [if_pos hc]
      exact step _ (by simp) (by simp) (by simp) (by simp) (by simp) hs2rt _ (Or.inl rfl)
    · rw [if_neg hc]
      exact step _ (by simp) (by simp) (by simp) (by simp) (by simp) hs2rt _ (Or.inr rfl)

theorem shift_mask_main (s : PolymerState) :
    (shift_mask s).1.polymerases = s.polymerases ∧
    (shift_mask s).1.prop_list = s.prop_list ∧
    (shift_mask s).1.prop_sum = s.prop_sum ∧
    (shift_mask s).1.stop = s.stop ∧
    (shift_mask s).1.elements.length = s.elements.length ∧
    rtPreserved s (shift_mask s).1 ∧
    Event.moved ∉ (shift_mask s).2 := by
  unfold shift_mask
  by_cases h0 : s.mask.start ≥ s.mask.stop
  · rw [if_pos h0]
    exact ⟨rfl, rfl, rfl, rfl, rfl, rtPreserved_rfl s, by simp⟩
  · rw [if_neg h0]
    cases hf : firstIdxWhere
        (fun e => spansIntersect s.mask.start s.mask.stop e.start e.stop)
        s.elements with
    | none =>
      exact ⟨rfl, rfl, rfl, rfl, rfl, rtPreserved_of_eq rfl, by simp⟩
    | some i => exact shiftMaskAt_main s i

/-! ### uncoverLoop: frame and readthrough -/

theorem uncoverLoop_main : ∀ (fuel : Nat) (s : PolymerState) (p : Polymerase)
    (idx : Nat) (s' : PolymerState), uncoverLoop fuel s p idx = .ok s' →
    s'.polymerases = s.polymerases ∧ s'.prop_list = s.prop_list ∧
    s'.prop_sum = s.prop_sum ∧ s'.stop = s.stop ∧ s'.mask = s.mask ∧
    s'.elements.length = s.elements.length ∧ rtPreserved s s' := by
  intro fuel
  induction fuel with
  | zero => intro s p idx s' h; simp [uncoverLoop] at h
  | succ n ih =>
    intro s p idx s' h
    unfold uncoverLoop at h
    cases he : s.elements[idx]? with
    | none => rw [he] at h; simp at h
    | some e =>
      rw [he] at h
      dsimp only at h
      by_cases hc : e.start ≤ p.stop
      · rw [if_pos hc] at h
        by_cases hsi : spansIntersect p.start p.stop e.start e.stop
        · rw [if_pos hsi] at h
          set s2 := updElem s idx (fun e0 => e0.save_state.uncover) with hs2
          have hframe2 : s2.polymerases = s.polymerases ∧
              s2.prop_list = s.prop_list ∧ s2.prop_sum = s.prop_sum ∧
              s2.stop = s.stop ∧ s2.mask = s.mask ∧
              s2.elements.length = s.elements.length ∧ rtPreserved s s2 := by
            refine ⟨by simp [hs2], by simp [hs2], by simp [hs2], by simp [hs2],
              by simp [hs2], by simp [hs2], updElem_rt_exact (fun e0 => rfl)⟩
          obtain ⟨f1, f2, f3, f4, f5, f6, f7⟩ := hframe2
          by_cases hge : idx + 1 ≥ s2.elements.length
          · rw [if_pos hge] at h
            injection h with h
            subst h
            exact ⟨f1, f2, f3, f4, f5, f6, f7⟩
          · rw [if_neg hge] at h
            obtain ⟨g1, g2, g3, g4, g5, g6, g7⟩ := ih s2 p (idx + 1) s' h
            refine ⟨g1.trans f1, g2.trans f2, g3.trans f3, g4.trans f4,
              g5.trans f5, g6.trans f6, rtPreserved_trans f7 g7 f6⟩
        · rw [if_neg hsi] at h
          by_cases hge : idx + 1 ≥ s.elements.length
          · rw [if_pos hge] at h
            injection h with h
            subst h
            exact ⟨rfl, rfl, rfl, rfl, rfl, rfl, rtPreserved_rfl s⟩
          · rw [if_neg hge] at h
            exact ih s p (idx + 1) s' h
      · rw [if_neg hc] at h
        injection h with h
        subst h
        exact ⟨rfl, rfl, rfl, rfl, rfl, rfl, rtPreserved_rfl s⟩

/-! ### Small propInv helpers -/

theorem propInv_updElem (s : PolymerState) (i : Nat) (f : Element → Element) :
    propInv (updElem s i f) ↔ propInv s := by
  unfold propInv
  simp

theorem getOpt_set_self {α : Type} {l : List α} {i : Nat} (x : α)
    (h : i < l.length) : (l.set i x)[i]? = some x := by
  simp [List.getElem?_set, h]

theorem propInv_syncPol {s : PolymerState} {i : Nat} {p q : Polymerase}
    (hent : s.polymerases[i]? = some q) (hsp : p.speed = q.speed)
    (hInv : propInv s) : propInv (syncPol s i p) := by
  obtain ⟨h1, h2⟩ := hInv
  constructor
  · show s.prop_list = (s.polymerases.set i p).map Polymerase.speed
    rw [set_map_of_eq Polymerase.speed s.polymerases i p q hent hsp]
    exact h1
  · exact h2

/-! ### resolve_termination: main lemma -/

theorem resolve_termination_main {v : Variant} {s : PolymerState}
    {p : Polymerase} {k : Nat} {rolls : Nat → ℚ} {d : Nat}
    {s2 : PolymerState} {d2 : Nat} {evs : List Event}
    (h : resolve_termination v s p k rolls d = .ok (s2, d2, evs)) :
    (propInv s → propInv s2) ∧ s2.stop = s.stop ∧
    s2.polymerases.length ≤ s.polymerases.length ∧
    s2.elements.length = s.elements.length ∧
    Event.moved ∉ evs ∧ rtPreserved s s2 := by
  unfold resolve_termination at h
  cases he : s.elements[k]? with
  | none => rw [he] at h; simp at h
  | some e =>
    rw [he] at h
    dsimp only at h
    by_cases h1 : e.etype ≠ "terminator"
    · rw [if_pos h1] at h
      cases h
      exact ⟨id, rfl, le_refl _, rfl, by simp, rtPreserved_rfl s⟩
    · rw [if_neg h1] at h
      cases h2 : e.check_interaction p.name with
      | false =>
        rw [h2] at h
        simp only [Bool.not_false, if_true] at h
        cases h
        exact ⟨id, rfl, le_refl _, rfl, by simp, rtPreserved_rfl s⟩
      | true =>
        rw [h2] at h
        simp only [Bool.not_true, Bool.false_eq_true, if_false] at h
        cases h3 : e.readthrough with
        | true =>
          rw [h3] at h
          simp only [if_true] at h
          cases h
          exact ⟨id, rfl, le_refl _, rfl, by simp, rtPreserved_rfl s⟩
        | false =>
          rw [h3] at h
          simp only [Bool.false_eq_true, if_false] at h
          cases hlk : e.efficiency.lookup p.name with
          | none => rw [hlk] at h; simp at h
          | some eff =>
            rw [hlk] at h
            dsimp only at h
            by_cases hr : rolls d ≤ eff
            · rw [if_pos hr] at h
              cases hterm : terminate v (updElem s k Element.uncover) p e.stop
                  e.gene with
              | error msg => rw [hterm] at h; simp at h
              | ok pr =>
                rw [hterm] at h
                dsimp only at h
                cases h
                obtain ⟨helem, hstop, _⟩ := terminate_elements
                  (by rw [hterm] : terminate v (updElem s k Element.uncover)
                    p e.stop e.gene = .ok (pr.1, pr.2))
                refine ⟨?_, ?_, ?_, ?_, ?_, ?_⟩
                · intro hI
                  exact terminate_propInv ((propInv_updElem s k _).mpr hI)
                    (by rw [hterm])
                · rw [hstop]; simp
                · have := terminate_length
                    (by rw [hterm] : terminate v (updElem s k Element.uncover)
                      p e.stop e.gene = .ok (pr.1, pr.2))
                  simp only [updElem_polymerases] at this
                  omega
                · rw [helem]; simp
                · exact terminate_noMoved
                    (by rw [hterm] : terminate v (updElem s k Element.uncover)
                      p e.stop e.gene = .ok (pr.1, pr.2))
                · exact rtPreserved_trans
                    (@updElem_rt_exact s k Element.uncover (fun e0 => rfl))
                    (rtPreserved_of_eq helem) (by simp)
            · rw [if_neg hr] at h
              cases h
              refine ⟨?_, by simp, ?_, by simp, by simp, ?_⟩
              · intro hI; exact (propInv_updElem s k _).mpr hI
              · simp only [updElem_polymerases]; exact le_refl _
              · exact updElem_rt (fun e0 h0 => rfl)

/-! ### resolve_collisions and resolve_mask_collisions -/

theorem resolve_collisions_ok {s : PolymerState} {polIdx : Nat} {p : Polymerase}
    {s3 : PolymerState} {p2 : Polymerase} {coll : Bool}
    (h : resolve_collisions s polIdx p = .ok (s3, p2, coll)) :
    (s3 = s ∧ p2 = p ∧ coll = false) ∨
      (s3 = syncPol s polIdx p.move_back ∧ p2 = p.move_back ∧ coll = true) := by
  unfold resolve_collisions at h
  by_cases h0 : polIdx + 1 > s.polymerases.length - 1
  · rw [if_pos h0] at h
    cases h
    exact Or.inl ⟨rfl, rfl, rfl⟩
  · rw [if_neg h0] at h
    cases hn : s.polymerases[polIdx + 1]? with
    | none => rw [hn] at h; cases h; exact Or.inl ⟨rfl, rfl, rfl⟩
    | some next =>
      rw [hn] at h
      dsimp only at h
      by_cases hi : spansIntersect p.start p.stop next.start next.stop
      · rw [if_pos hi] at h
        by_cases hov : p.stop - next.start > 1
        · rw [if_pos hov] at h; simp at h
        · rw [if_neg hov] at h
          cases h
          exact Or.inr ⟨rfl, rfl, rfl⟩
      · rw [if_neg hi] at h
        cases h
        exact Or.inl ⟨rfl, rfl, rfl⟩

theorem resolve_mask_ok {s : PolymerState} {polIdx : Nat} {p : Polymerase}
    {s4 : PolymerState} {p3 : Polymerase} {mc : Bool} {evs : List Event}
    (h : resolve_mask_collisions s polIdx p = .ok (s4, p3, mc, evs)) :
    (s4 = s ∧ p3 = p ∧ evs = []) ∨
      (s4 = (shift_mask s).1 ∧ p3 = p ∧ evs = (shift_mask s).2) ∨
      (s4 = syncPol s polIdx p.move_back ∧ p3 = p.move_back ∧ evs = []) := by
  unfold resolve_mask_collisions at h
  by_cases h0 : s.mask.start > s.stop
  · rw [if_pos h0] at h; cases h; exact Or.inl ⟨rfl, rfl, rfl⟩
  · rw [if_neg h0] at h
    by_cases hi : spansIntersect p.start p.stop s.mask.start s.mask.stop
    · rw [if_pos hi] at h
      by_cases hov : p.stop - s.mask.start > 1
      · rw [if_pos hov] at h; simp at h
      · rw [if_neg hov] at h
        by_cases hci : s.mask.check_interaction p.name
        · rw [if_pos hci] at h
          cases h
          exact Or.inr (Or.inl ⟨rfl, rfl, rfl⟩)
        · rw [if_neg hci] at h
          cases h
          exact Or.inr (Or.inr ⟨rfl, rfl, rfl⟩)
    · rw [if_neg hi] at h; cases h; exact Or.inl ⟨rfl, rfl, rfl⟩

/-! ### coverLoop: main lemma -/

theorem coverLoop_main (v : Variant) : ∀ (fuel : Nat) (s : PolymerState)
    (p : Polymerase) (polIdx : Nat) (reset : Bool) (rolls : Nat → ℚ)
    (draws : Nat) (idx : Nat) (s' : PolymerState) (p' : Polymerase)
    (d' : Nat) (evs : List Event),
    coverLoop v fuel s p polIdx reset rolls draws idx = .ok (s', p', d', evs) →
    ((propInv s ∧ (reset = true → s.polymerases[polIdx]? = some p)) →
        propInv s') ∧
    s'.stop = s.stop ∧ s'.polymerases.length ≤ s.polymerases.length ∧
    s'.elements.length = s.elements.length ∧
    Event.moved ∉ evs ∧ rtPreserved s s' := by
  intro fuel
  induction fuel with
  | zero =>
    intro s p polIdx reset rolls draws idx s' p' d' evs h
    simp [coverLoop] at h
  | succ n ih =>
    intro s p polIdx reset rolls draws idx s' p' d' evs h
    unfold coverLoop at h
    cases he : s.elements[idx]? with
    | none => rw [he] at h; simp at h
    | some e =>
      rw [he] at h
      dsimp only at h
      by_cases hc : e.start ≤ p.stop
      · rw [if_pos hc] at h
        by_cases hsi : spansIntersect p.start p.stop e.start e.stop
        · rw [if_pos hsi] at h
          -- the intersecting branch: left_most reset, cover, termination
          cases hreset : reset with
          | true =>
            rw [hreset] at h
            simp only [if_true] at h
            -- p2 is p with left_most_element idx; sA syncs it in
            cases hrt : resolve_termination v
                (updElem (syncPol s polIdx { p with left_most_element := idx })
                  idx Element.cover)
                { p with left_most_element := idx } idx rolls draws with
            | error msg => rw [hrt] at h; simp at h
            | ok tr =>
              rw [hrt] at h
              dsimp only at h
              obtain ⟨hI, hstop, hlen, helen, hmv, hrtp⟩ :=
                resolve_termination_main (by rw [hrt] : resolve_termination v _ _ idx rolls draws = .ok (tr.1, tr.2.1, tr.2.2))
              have hqel : (checkStateAt tr.1 idx).1.elements = tr.1.elements :=
                checkStateAt_elements tr.1 idx
              have base :
                  (propInv s ∧ (true = true →
                      s.polymerases[polIdx]? = some p)) →
                    propInv (updElem (checkStateAt tr.1 idx).1 idx
                      Element.save_state) := by
                rintro ⟨hpi, hent⟩
                have hent' := hent rfl
                have h1 : propInv (syncPol s polIdx
                    { p with left_most_element := idx }) :=
                  propInv_syncPol hent' rfl hpi
                have h2 : propInv (updElem (syncPol s polIdx
                    { p with left_most_element := idx }) idx Element.cover) :=
                  (propInv_updElem _ _ _).mpr h1
                have h3 := hI h2
                rw [propInv_updElem]
                unfold propInv at h3 ⊢
                simpa using h3
              have hstop' : (updElem (checkStateAt tr.1 idx).1 idx
                  Element.save_state).stop = s.stop := by
                simp only [updElem_stop, checkStateAt_stop]
                rw [hstop]; simp
              have hlen' : (updElem (checkStateAt tr.1 idx).1 idx
                  Element.save_state).polymerases.length
                    ≤ s.polymerases.length := by
                simp only [updElem_polymerases, checkStateAt_polymerases]
                calc tr.1.polymerases.length
                    ≤ (updElem (syncPol s polIdx
                        { p with left_most_element := idx }) idx
                        Element.cover).polymerases.length := hlen
                  _ = s.polymerases.length := by simp
              have helen' : (updElem (checkStateAt tr.1 idx).1 idx
                  Element.save_state).elements.length = s.elements.length := by
                simp only [updElem_elements_length]
                rw [hqel, helen]; simp
              have hrtp' : rtPreserved s (updElem (checkStateAt tr.1 idx).1 idx
                  Element.save_state) := by
                have a1 : rtPreserved s (updElem (syncPol s polIdx
                    { p with left_most_element := idx }) idx Element.cover) :=
                  rtPreserved_trans (rtPreserved_of_eq rfl)
                    (@updElem_rt_exact
                      (syncPol s polIdx { p with left_most_element := idx })
                      idx Element.cover (fun e0 => rfl)) (by simp)
                have a2 : rtPreserved s tr.1 :=
                  rtPreserved_trans a1 hrtp (by simp)
                have a3 : rtPreserved s (checkStateAt tr.1 idx).1 :=
                  rtPreserved_trans a2 (rtPreserved_of_eq hqel)
                    (by rw [helen]; simp)
                refine rtPreserved_trans a3
                  (updElem_rt_exact (fun e0 => rfl)) ?_
                rw [hqel, helen]; simp
              by_cases hge : idx + 1 ≥ (updElem (checkStateAt tr.1 idx).1 idx
                  Element.save_state).elements.length
              · rw [if_pos hge] at h
                cases h
                refine ⟨base, hstop', hlen', helen', ?_, hrtp'⟩
                intro hmem
                rcases List.mem_append.mp hmem with hm | hm
                · exact hmv hm
                · rcases checkStateAt_events tr.1 idx with h9 | ⟨nm, h9⟩ |
                    ⟨nm, h9⟩ <;> rw [h9] at hm <;> simp at hm
              · rw [if_neg hge] at h
                cases hrec : coverLoop v n (updElem (checkStateAt tr.1 idx).1
                    idx Element.save_state) { p with left_most_element := idx }
                    polIdx false rolls tr.2.1 (idx + 1) with
                | error msg => rw [hrec] at h; simp at h
                | ok fr =>
                  rw [hrec] at h
                  dsimp only at h
                  cases h
                  obtain ⟨gI, gstop, glen, gelen, gmv, grtp⟩ :=
                    ih _ _ polIdx false rolls _ (idx + 1) fr.1 fr.2.1 fr.2.2.1
                      fr.2.2.2 (by rw [hrec])
                  refine ⟨?_, ?_, ?_, ?_, ?_, ?_⟩
                  · intro hpe
                    exact gI ⟨base hpe, by simp⟩
                  · rw [gstop, hstop']
                  · calc fr.1.polymerases.length
                        ≤ _ := glen
                      _ ≤ s.polymerases.length := by
                        simpa using hlen'
                  · rw [gelen, helen']
                  · intro hmem
                    rcases List.mem_append.mp hmem with hm | hm
                    · rcases List.mem_append.mp hm with hm2 | hm2
                      · exact hmv hm2
                      · rcases checkStateAt_events tr.1 idx with h9 | ⟨nm, h9⟩ |
                          ⟨nm, h9⟩ <;> rw [h9] at hm2 <;> simp at hm2
                    · exact gmv hm
                  · exact rtPreserved_trans hrtp' grtp helen'
          | false =>
            rw [hreset] at h
            simp only [Bool.false_eq_true, if_false] at h
            cases hrt : resolve_termination v (updElem s idx Element.cover)
                p idx rolls draws with
            | error msg => rw [hrt] at h; simp at h
            | ok tr =>
              rw [hrt] at h
              dsimp only at h
              obtain ⟨hI, hstop, hlen, helen, hmv, hrtp⟩ :=
                resolve_termination_main (by rw [hrt] : resolve_termination v _ _ idx rolls draws = .ok (tr.1, tr.2.1, tr.2.2))
              have hqel : (checkStateAt tr.1 idx).1.elements = tr.1.elements :=
                checkStateAt_elements tr.1 idx
              have base : propInv s →
                  propInv (updElem (checkStateAt tr.1 idx).1 idx
                    Element.save_state) := by
                intro hpi
                have h3 := hI ((propInv_updElem _ _ _).mpr hpi)
                rw [propInv_updElem]
                unfold propInv at h3 ⊢
                simpa using h3
              have hstop' : (updElem (checkStateAt tr.1 idx).1 idx
                  Element.save_state).stop = s.stop := by
                simp only [updElem_stop, checkStateAt_stop]
                rw [hstop]; simp
              have hlen' : (updElem (checkStateAt tr.1 idx).1 idx
                  Element.save_state).polymerases.length
                    ≤ s.polymerases.length := by
                simp only [updElem_polymerases, checkStateAt_polymerases]
                calc tr.1.polymerases.length
                    ≤ (updElem s idx Element.cover).polymerases.length := hlen
                  _ = s.polymerases.length := by simp
              have helen' : (updElem (checkStateAt tr.1 idx).1 idx
                  Element.save_state).elements.length = s.elements.length := by
                simp only [updElem_elements_length]
                rw [hqel, helen]; simp
              have hrtp' : rtPreserved s (updElem (checkStateAt tr.1 idx).1 idx
                  Element.save_state) := by
                have a1 : rtPreserved s (updElem s idx Element.cover) :=
                  updElem_rt_exact (fun e0 => rfl)
                have a2 : rtPreserved s tr.1 :=
                  rtPreserved_trans a1 hrtp (by simp)
                have a3 : rtPreserved s (checkStateAt tr.1 idx).1 :=
                  rtPreserved_trans a2 (rtPreserved_of_eq hqel)
                    (by rw [helen]; simp)
                refine rtPreserved_trans a3
                  (updElem_rt_exact (fun e0 => rfl)) ?_
                rw [hqel, helen]; simp
              by_cases hge : idx + 1 ≥ (updElem (checkStateAt tr.1 idx).1 idx
                  Element.save_state).elements.length
              · rw [if_pos hge] at h
                cases h
                refine ⟨fun hpe => base hpe.1, hstop', hlen', helen', ?_, hrtp'⟩
                intro hmem
                rcases List.mem_append.mp hmem with hm | hm
                · exact hmv hm
                · rcases checkStateAt_events tr.1 idx with h9 | ⟨nm, h9⟩ |
                    ⟨nm, h9⟩ <;> rw [h9] at hm <;> simp at hm
              · rw [if_neg hge] at h
                cases hrec : coverLoop v n (updElem (checkStateAt tr.1 idx).1
                    idx Element.save_state) p polIdx false rolls tr.2.1
                    (idx + 1) with
                | error msg => rw [hrec] at h; simp at h
                | ok fr =>
                  rw [hrec] at h
                  dsimp only at h
                  cases h
                  obtain ⟨gI, gstop, glen, gelen, gmv, grtp⟩ :=
                    ih _ _ polIdx false rolls _ (idx + 1) fr.1 fr.2.1 fr.2.2.1
                      fr.2.2.2 (by rw [hrec])
                  refine ⟨?_, ?_, ?_, ?_, ?_, ?_⟩
                  · intro hpe
                    exact gI ⟨base hpe.1, by simp⟩
                  · rw [gstop, hstop']
                  · calc fr.1.polymerases.length
                        ≤ _ := glen
                      _ ≤ s.polymerases.length := by simpa using hlen'
                  · rw [gelen, helen']
                  · intro hmem
                    rcases List.mem_append.mp hmem with hm | hm
                    · rcases List.mem_append.mp hm with hm2 | hm2
                      · exact hmv hm2
                      · rcases checkStateAt_events tr.1 idx with h9 | ⟨nm, h9⟩ |
                          ⟨nm, h9⟩ <;> rw [h9] at hm2 <;> simp at hm2
                    · exact gmv hm
                  · exact rtPreserved_trans hrtp' grtp helen'
        · rw [if_neg hsi] at h
          -- non-intersecting: just check_state and save_state
          have hqel : (checkStateAt s idx).1.elements = s.elements :=
            checkStateAt_elements s idx
          have hfr : (updElem (checkStateAt s idx).1 idx
              Element.save_state).polymerases = s.polymerases ∧
              (updElem (checkStateAt s idx).1 idx
                Element.save_state).prop_list = s.prop_list ∧
              (updElem (checkStateAt s idx).1 idx
                Element.save_state).prop_sum = s.prop_sum ∧
              (updElem (checkStateAt s idx).1 idx
                Element.save_state).stop = s.stop ∧
              (updElem (checkStateAt s idx).1 idx
                Element.save_state).elements.length = s.elements.length := by
            refine ⟨by simp, by simp, by simp, by simp, ?_⟩
            simp only [updElem_elements_length]
            rw [hqel]
          obtain ⟨k1, k2, k3, k4, k5⟩ := hfr
          have hrtp' : rtPreserved s (updElem (checkStateAt s idx).1 idx
              Element.save_state) := by
            have a3 : rtPreserved s (checkStateAt s idx).1 :=
              rtPreserved_of_eq hqel
            refine rtPreserved_trans a3
              (updElem_rt_exact (fun e0 => rfl)) ?_
            rw [hqel]
          by_cases hge : idx + 1 ≥ (updElem (checkStateAt s idx).1 idx
              Element.save_state).elements.length
          · rw [if_pos hge] at h
            cases h
            refine ⟨?_, k4, le_of_eq (by rw [k1]), k5, ?_, hrtp'⟩
            · intro hpe
              unfold propInv at hpe ⊢
              rw [k1, k2, k3]
              exact hpe.1
            · intro hmem
              rcases checkStateAt_events s idx with h9 | ⟨nm, h9⟩ |
                ⟨nm, h9⟩ <;> rw [h9] at hmem <;> simp at hmem
          · rw [if_neg hge] at h
            cases hrec : coverLoop v n (updElem (checkStateAt s idx).1 idx
                Element.save_state) p polIdx reset rolls draws (idx + 1) with
            | error msg => rw [hrec] at h; simp at h
            | ok fr =>
              rw [hrec] at h
              dsimp only at h
              cases h
              obtain ⟨gI, gstop, glen, gelen, gmv, grtp⟩ :=
                ih _ _ polIdx reset rolls draws (idx + 1) fr.1 fr.2.1 fr.2.2.1
                  fr.2.2.2 (by rw [hrec])
              refine ⟨?_, ?_, ?_, ?_, ?_, ?_⟩
              · intro hpe
                refine gI ⟨?_, ?_⟩
                · unfold propInv at hpe ⊢
                  rw [k1, k2, k3]
                  exact hpe.1
                · intro hrs
                  rw [k1]
                  exact hpe.2 hrs
              · rw [gstop, k4]
              · calc fr.1.polymerases.length ≤ _ := glen
                  _ = s.polymerases.length := by rw [k1]
              · rw [gelen, k5]
              · intro hmem
                rcases List.mem_append.mp hmem with hm | hm
                · rcases checkStateAt_events s idx with h9 | ⟨nm, h9⟩ |
                    ⟨nm, h9⟩ <;> rw [h9] at hm <;> simp at hm
                · exact gmv hm
              · exact rtPreserved_trans hrtp' grtp k5
      · rw [if_neg hc] at h
        cases h
        exact ⟨fun hpe => hpe.1, rfl, le_refl _, rfl, by simp,
          rtPreserved_rfl s⟩

/-! ### bind_polymerase: propInv and readthrough preservation -/

theorem insert_polymerase_ok {s : PolymerState} {pol : Polymerase}
    {s' : PolymerState} (h : insert_polymerase s pol = .ok s') :
    s'.polymerases = pyInsert s.polymerases (insertPos s.polymerases pol.start)
        pol ∧
    s'.prop_list = pyInsert s.prop_list (insertPos s.polymerases pol.start)
        pol.speed ∧
    s'.prop_sum = s.prop_sum ∧ s'.elements = s.elements ∧ s'.stop = s.stop := by
  unfold insert_polymerase at h
  by_cases hc : s.polymerases.contains pol
  · rw [if_pos hc] at h; simp at h
  · rw [if_neg hc] at h
    cases h
    exact ⟨rfl, rfl, rfl, rfl, rfl⟩

theorem bind_ok_anatomy {s : PolymerState} {pol : Polymerase}
    {promoter : String} {r : ℚ} {s' : PolymerState} {pol' : Polymerase}
    {evs : List Event}
    (h : bind_polymerase s pol promoter r = .ok (s', pol', evs)) :
    ∃ (k j : Nat) (e : Element),
      weightedChoiceIdx ((bindChoices s promoter).map fun _ => (1 : ℚ)) r
          = some k ∧
      (bindChoices s promoter)[k]? = some (j, e) ∧
      pol' = { pol with start := e.start, stop := e.start + pol.footprint - 1,
                        left_most_element := j } ∧
      ¬ pol'.stop > s.mask.start ∧
      s.elements[j]? = some e ∧
      s'.polymerases = pyInsert s.polymerases
        (insertPos s.polymerases pol'.start) pol' ∧
      s'.prop_list = pyInsert s.prop_list
        (insertPos s.polymerases pol'.start) pol'.speed ∧
      s'.prop_sum = s.prop_sum + pol'.speed ∧
      s'.elements = s.elements.set j (e.cover.save_state) ∧
      s'.stop = s.stop ∧
      evs = [.propensityChanged s'.polymerases s'.prop_list s'.prop_sum] := by
  unfold bind_polymerase at h
  by_cases h0 : (bindChoices s promoter).isEmpty
  · rw [if_pos h0] at h; simp at h
  · rw [if_neg h0] at h
    cases hw : weightedChoiceIdx
        ((bindChoices s promoter).map fun _ => (1 : ℚ)) r with
    | none => rw [hw] at h; simp at h
    | some k =>
      rw [hw] at h
      dsimp only at h
      cases hk : (bindChoices s promoter)[k]? with
      | none => rw [hk] at h; simp at h
      | some je =>
        rw [hk] at h
        dsimp only at h
        have hje : s.elements[je.1]? = some je.2 := by
          have hmem := mem_of_getOpt hk
          unfold bindChoices at hmem
          have := List.mem_filter.mp hmem
          exact List.mem_enum_iff_getElem?.mp this.1
        cases hci : je.2.check_interaction pol.name with
        | false =>
          rw [hci] at h
          simp at h
        | true =>
          rw [hci] at h
          simp only [Bool.not_true, Bool.false_eq_true, if_false] at h
          by_cases hfp : je.2.stop <
              ({ pol with start := je.2.start, stop := je.2.start + pol.footprint - 1, left_most_element := je.1 } : Polymerase).stop
          · rw [if_pos hfp] at h; simp at h
          · rw [if_neg hfp] at h
            by_cases hmg : ({ pol with start := je.2.start, stop := je.2.start + pol.footprint - 1, left_most_element := je.1 } : Polymerase).stop > s.mask.start
            · rw [if_pos hmg] at h; simp at h
            · rw [if_neg hmg] at h
              cases hlk : ({ s with elements := s.elements.set je.1 (je.2.cover.save_state) } : PolymerState).uncovered.lookup je.2.name with
              | none => rw [hlk] at h; simp at h
              | some c =>
                rw [hlk] at h
                dsimp only at h
                by_cases ha1 : (je.2.cover.save_state).covered
                    != (je.2.cover.save_state).old_covered
                · rw [if_pos ha1] at h; simp at h
                · rw [if_neg ha1] at h
                  by_cases ha2 : !(c - 1 > -1 : Bool)
                  · rw [if_pos ha2] at h; simp at h
                  · rw [if_neg ha2] at h
                    cases hins : insert_polymerase
                        { { s with elements := s.elements.set je.1 (je.2.cover.save_state) } with uncovered := dictAdjust ({ s with elements := s.elements.set je.1 (je.2.cover.save_state) } : PolymerState).uncovered je.2.name (· - 1) }
                        { pol with start := je.2.start, stop := je.2.start + pol.footprint - 1, left_most_element := je.1 } with
                    | error msg => rw [hins] at h; simp at h
                    | ok s3 =>
                      rw [hins] at h
                      dsimp only at h
                      cases h
                      obtain ⟨i1, i2, i3, i4, i5⟩ := insert_polymerase_ok hins
                      exact ⟨k, je.1, je.2, rfl, by rw [hk], rfl, hmg, hje,
                        i1, i2, by rw [i3], by rw [i4], by rw [i5], rfl⟩

theorem bind_propInv {s : PolymerState} {pol : Polymerase} {promoter : String}
    {r : ℚ} {s' : PolymerState} {pol' : Polymerase} {evs : List Event}
    (hInv : propInv s)
    (h : bind_polymerase s pol promoter r = .ok (s', pol', evs)) :
    propInv s' := by
  obtain ⟨k, j, e, _, _, _, _, _, hpy, hpl, hsum, _, _, _⟩ :=
    bind_ok_anatomy h
  constructor
  · show s'.prop_list = s'.polymerases.map Polymerase.speed
    rw [hpy, hpl, pyInsert_map, ← hInv.1]
  · show s'.prop_sum = s'.prop_list.sum
    rw [hsum, hpl, pyInsert_sum, ← hInv.2]
    ring

theorem bind_rt {s : PolymerState} {pol : Polymerase} {promoter : String}
    {r : ℚ} {s' : PolymerState} {pol' : Polymerase} {evs : List Event}
    (h : bind_polymerase s pol promoter r = .ok (s', pol', evs)) :
    rtPreserved s s' := by
  obtain ⟨k, j, e, _, _, _, _, hje, _, _, _, hels, _, _⟩ :=
    bind_ok_anatomy h
  intro k0 e0 e0' he0 he0' hrt
  rw [hels] at he0'
  rw [List.getElem?_set] at he0'
  by_cases hjk : j = k0
  · subst hjk
    rw [hje] at he0
    cases he0
    have hlt : j < s.elements.length := (List.getElem?_eq_some.mp hje).1
    simp [hlt] at he0'
    subst he0'
    exact hrt
  · rw [if_neg hjk] at he0'
    rw [he0] at he0'
    cases he0'
    exact hrt

/-! ### move_polymerase and execute: main lemmas -/

theorem move_polymerase_main {v : Variant} {s : PolymerState} {polIdx : Nat}
    {rolls : Nat → ℚ} {s' : PolymerState} {p' : Polymerase} {evs : List Event}
    (h : move_polymerase v s polIdx rolls = .ok (s', p', evs)) :
    (propInv s → propInv s') ∧ s'.stop = s.stop ∧
    s'.polymerases.length ≤ s.polymerases.length ∧
    rtPreserved s s' ∧
    (p'.stop > s.stop → Event.released s.stop ∈ evs ∧
      s'.polymerases.length < s.polymerases.length) := by
  unfold move_polymerase at h
  cases hp0 : s.polymerases[polIdx]? with
  | none => rw [hp0] at h; simp at h
  | some p0 =>
    rw [hp0] at h
    dsimp only at h
    cases hul : uncoverLoop (s.elements.length + 1) s p0 p0.left_most_element with
    | error msg => rw [hul] at h; simp at h
    | ok s1 =>
      rw [hul] at h
      dsimp only at h
      obtain ⟨u1, u2, u3, u4, u5, u6, u7⟩ := uncoverLoop_main _ _ _ _ _ hul
      have hlt : polIdx < s.polymerases.length := (List.getElem?_eq_some.mp hp0).1
      have hent2 : (syncPol s1 polIdx p0.move).polymerases[polIdx]?
          = some p0.move := by
        unfold syncPol
        simp only
        rw [u1]
        exact getOpt_set_self _ hlt
      have hpi2 : propInv s → propInv (syncPol s1 polIdx p0.move) := by
        intro hpi
        have hpi1 : propInv s1 := by
          unfold propInv at hpi ⊢
          rw [u1, u2, u3]
          exact hpi
        exact propInv_syncPol
          (show s1.polymerases[polIdx]? = some p0 by rw [u1]; exact hp0)
          rfl hpi1
      cases hrc : resolve_collisions (syncPol s1 polIdx p0.move) polIdx
          p0.move with
      | error msg => rw [hrc] at h; simp at h
      | ok cr =>
        rw [hrc] at h
        dsimp only at h
        have hcr3 : cr.1.polymerases[polIdx]? = some cr.2.1 ∧
            (propInv s → propInv cr.1) ∧ cr.1.stop = s.stop ∧
            cr.1.elements = s1.elements ∧
            cr.1.polymerases.length = s.polymerases.length ∧
            rtPreserved s cr.1 := by
          rcases resolve_collisions_ok
              (by rw [hrc] : resolve_collisions _ polIdx p0.move
                = .ok (cr.1, cr.2.1, cr.2.2)) with
            ⟨he1, he2, _⟩ | ⟨he1, he2, _⟩
          · rw [he1, he2]
            refine ⟨hent2, hpi2, by simp [u4], rfl, by simp [u1], ?_⟩
            exact rtPreserved_trans u7 (rtPreserved_of_eq rfl) u6
          · rw [he1, he2]
            refine ⟨?_, ?_, by simp [u4], rfl, by simp [u1], ?_⟩
            · unfold syncPol
              simp only
              have hlt2 : polIdx < (s1.polymerases.set polIdx p0.move).length := by
                rw [List.length_set, u1]; exact hlt
              exact getOpt_set_self _ hlt2
            · intro hpi
              exact propInv_syncPol hent2 rfl (hpi2 hpi)
            · exact rtPreserved_trans u7 (rtPreserved_of_eq rfl) u6
        obtain ⟨c1, c2, c3, c4, c5, c6⟩ := hcr3
        cases hrm : resolve_mask_collisions cr.1 polIdx cr.2.1 with
        | error msg => rw [hrm] at h; simp at h
        | ok mr =>
          rw [hrm] at h
          dsimp only at h
          have hmr4 : mr.1.polymerases[polIdx]? = some mr.2.1 ∧
              (propInv s → propInv mr.1) ∧ mr.1.stop = s.stop ∧
              mr.1.elements.length = s.elements.length ∧
              mr.1.polymerases.length = s.polymerases.length ∧
              rtPreserved s mr.1 ∧ Event.moved ∉ mr.2.2.2 := by
            rcases resolve_mask_ok
                (by rw [hrm] : resolve_mask_collisions _ polIdx cr.2.1
                  = .ok (mr.1, mr.2.1, mr.2.2.1, mr.2.2.2)) with
              ⟨he1, he2, he3⟩ | ⟨he1, he2, he3⟩ | ⟨he1, he2, he3⟩
            · rw [he1, he2, he3]
              refine ⟨c1, c2, c3, ?_, c5, c6, by simp⟩
              rw [c4, u6]
            · obtain ⟨m1, m2, m3, m4, m5, m6, m7⟩ := shift_mask_main cr.1
              rw [he1, he2, he3]
              refine ⟨?_, ?_, ?_, ?_, ?_, ?_, m7⟩
              · rw [m1]; exact c1
              · intro hpi
                have := c2 hpi
                unfold propInv at this ⊢
                rw [m1, m2, m3]
                exact this
              · rw [m4, c3]
              · rw [m5, c4, u6]
              · rw [m1]; exact c5
              · refine rtPreserved_trans c6 m6 ?_
                rw [c4, u6]
            · rw [he1, he2, he3]
              refine ⟨?_, ?_, by simp [c3], by simp [c4, u6], by simp [c5], ?_,
                by simp⟩
              · unfold syncPol
                simp only
                have hlt2 : polIdx < cr.1.polymerases.length := by rw [c5]; omega
                exact getOpt_set_self _ hlt2
              · intro hpi
                exact propInv_syncPol c1 rfl (c2 hpi)
              · exact rtPreserved_trans c6 (rtPreserved_of_eq rfl) (by rw [c4, u6])
          obtain ⟨m1, m2, m3, m4, m5, m6, m7⟩ := hmr4
          cases hcl : coverLoop v (mr.1.elements.length + 1) mr.1 mr.2.1 polIdx
              true rolls 0 mr.2.1.left_most_element with
          | error msg => rw [hcl] at h; simp at h
          | ok lr =>
            rw [hcl] at h
            dsimp only at h
            obtain ⟨lI, lstop, llen, lelen, lmv, lrt⟩ := coverLoop_main v _ _ _
              polIdx true rolls 0 _ lr.1 lr.2.1 lr.2.2.1 lr.2.2.2 (by rw [hcl])
            have hpi5 : propInv s → propInv lr.1 := fun hpi =>
              lI ⟨m2 hpi, fun _ => m1⟩
            have hstop5 : lr.1.stop = s.stop := lstop.trans m3
            have hlen5 : lr.1.polymerases.length ≤ s.polymerases.length := by
              rw [← m5]; exact llen
            have helen5 : lr.1.elements.length = s.elements.length :=
              lelen.trans m4
            have hrt5 : rtPreserved s lr.1 := rtPreserved_trans m6 lrt m4
            by_cases hrun : lr.2.1.stop > lr.1.stop
            · rw [if_pos hrun] at h
              cases hterm : terminate v lr.1 lr.2.1 lr.1.stop "" with
              | error msg => rw [hterm] at h; simp at h
              | ok tr =>
                rw [hterm] at h
                dsimp only at h
                cases h
                have hT := terminate_ok_iff v lr.1 lr.2.1 lr.1.stop "" tr.1 tr.2
                rw [hterm] at hT
                obtain ⟨i, hfi, hs6, hevs6⟩ := hT.mp rfl
                obtain ⟨helem6, hstop6, _⟩ :=
                  terminate_elements (by rw [hterm] : terminate v lr.1 _ _ _ = .ok (tr.1, tr.2))
                have hlen6 := terminate_length
                  (by rw [hterm] : terminate v lr.1 _ _ _ = .ok (tr.1, tr.2))
                refine ⟨?_, ?_, ?_, ?_, ?_⟩
                · intro hpi
                  exact terminate_propInv (hpi5 hpi) (by rw [hterm])
                · rw [hstop6, hstop5]
                · omega
                · refine rtPreserved_trans hrt5
                    (rtPreserved_of_eq helem6) helen5
                · intro hgt
                  constructor
                  · have : Event.released s.stop ∈ tr.2 := by
                      rw [hevs6, hstop5]
                      simp
                    simp only [List.mem_append]
                    exact Or.inr this
                  · omega
            · rw [if_neg hrun] at h
              cases h
              refine ⟨hpi5, hstop5, hlen5, hrt5, ?_⟩
              intro hgt
              rw [← hstop5] at hgt
              exact absurd hgt hrun

theorem execute_main {v : Variant} {s : PolymerState} {r : ℚ}
    {rolls : Nat → ℚ} {s' : PolymerState} {evs : List Event}
    (h : execute v s r rolls = .ok (s', evs)) :
    (propInv s → propInv s') ∧ s'.stop = s.stop ∧
    s'.polymerases.length ≤ s.polymerases.length ∧ rtPreserved s s' := by
  unfold execute at h
  by_cases h0 : s.prop_sum = 0
  · rw [if_pos h0] at h; simp at h
  · rw [if_neg h0] at h
    by_cases h1 : s.prop_list.isEmpty
    · rw [if_pos h1] at h; simp at h
    · rw [if_neg h1] at h
      cases hw : weightedChoiceIdx s.prop_list r with
      | none => rw [hw] at h; simp at h
      | some i =>
        rw [hw] at h
        dsimp only at h
        cases hm : move_polymerase v s i rolls with
        | error msg => rw [hm] at h; simp at h
        | ok mv =>
          rw [hm] at h
          dsimp only at h
          cases h
          obtain ⟨a1, a2, a3, a4, _⟩ := move_polymerase_main
            (by rw [hm] : move_polymerase v s i rolls = .ok (mv.1, mv.2.1, mv.2.2))
          exact ⟨a1, a2, a3, a4⟩

/-! ### The claims -/

theorem engineReachable_propInv (s : PolymerState) (h : EngineReachable s) :
    propInv s := by
  induction h with
  | construction name start stop elements mask =>
    constructor <;> simp [initPolymer]
  | bind s pol promoter r s' pol' evs hr hb ih => exact bind_propInv ih hb
  | exec v s r rolls s' evs hr he ih => exact (execute_main he).1 ih
  | shift s hr ih =>
    obtain ⟨a1, a2, a3, _⟩ := shift_mask_main s
    unfold propInv at ih ⊢
    rw [a1, a2, a3]
    exact ih
  | term v s pol a g s' evs hr ht ih => exact terminate_propInv ih ht

/-- C1: for every engine state reachable by construction followed by any
sequence of completed public operations (bind_polymerase, execute,
shift_mask, terminate), the sum of the weight sequence prop_list equals
the running propensity total prop_sum. -/
theorem c1_prop_sum_invariant (s : PolymerState) (h : EngineReachable s) :
    s.prop_list.sum = s.prop_sum :=
  ((engineReachable_propInv s h).2).symm

/-- Witness for C1: the invariant evaluated on a state reached by
construction followed by one completed shift_mask. -/
theorem c1_prop_sum_invariant_witness :
    (shift_mask (initPolymer "mygenome" 1 100
      [Promoter "promoter1" 5 15 ["ecolipol", "rnapol"]]
      { name := "mask", start := 10, stop := 100,
        interactions := ["ecolipol"] })).1.prop_list.sum
    = (shift_mask (initPolymer "mygenome" 1 100
      [Promoter "promoter1" 5 15 ["ecolipol", "rnapol"]]
      { name := "mask", start := 10, stop := 100,
        interactions := ["ecolipol"] })).1.prop_sum :=
  c1_prop_sum_invariant _
    (EngineReachable.shift _ (EngineReachable.construction _ _ _ _ _))

/-- C8: for every integer stop coordinate, Transcript.release(stop)
rolls the mask start backward by (stop - current mask start), i.e. sets
it to stop, and this is the only state change release performs. -/
theorem c8_transcript_release (s : PolymerState) (stop : Int) :
    transcript_release s stop = { s with mask := { s.mask with start := stop } } := by
  unfold transcript_release
  dsimp only
  have h : s.mask.start + (stop - s.mask.start) = stop := by ring
  rw [h]

/-- C4: once a terminator element's readthrough flag is true, a movement
step's interaction with it is a complete no-op: no state change, no
random roll consumed, no notification (hence no termination at it); and
every public operation (bind_polymerase, execute, shift_mask, terminate)
preserves a set readthrough flag at every element position, so no engine
operation ever resets it to false. -/
theorem c4_readthrough_permanent :
    (∀ (v : Variant) (s : PolymerState) (p : Polymerase) (k : Nat)
        (rolls : Nat → ℚ) (d : Nat) (e : Element),
        s.elements[k]? = some e → e.readthrough = true →
        resolve_termination v s p k rolls d = .ok (s, d, [])) ∧
    (∀ (s : PolymerState) (pol : Polymerase) (promoter : String) (r : ℚ)
        (s' : PolymerState) (pol' : Polymerase) (evs : List Event),
        bind_polymerase s pol promoter r = .ok (s', pol', evs) →
        rtPreserved s s') ∧
    (∀ (v : Variant) (s : PolymerState) (r : ℚ) (rolls : Nat → ℚ)
        (s' : PolymerState) (evs : List Event),
        execute v s r rolls = .ok (s', evs) → rtPreserved s s') ∧
    (∀ s : PolymerState, rtPreserved s (shift_mask s).1) ∧
    (∀ (v : Variant) (s : PolymerState) (pol : Polymerase) (a : Int)
        (g : String) (s' : PolymerState) (evs : List Event),
        terminate v s pol a g = .ok (s', evs) → rtPreserved s s') := by
  refine ⟨?_, ?_, ?_, ?_, ?_⟩
  · intro v s p k rolls d e he hrt
    unfold resolve_termination
    rw [he]
    dsimp only
    by_cases h1 : e.etype ≠ "terminator"
    · rw [if_pos h1]
    · rw [if_neg h1]
      cases h2 : e.check_interaction p.name
      · simp [h2]
      · simp [h2, hrt]
  · intro s pol promoter r s' pol' evs h
    exact bind_rt h
  · intro v s r rolls s' evs h
    exact (execute_main h).2.2.2
  · intro s
    exact (shift_mask_main s).2.2.2.2.2.1
  · intro v s pol a g s' evs h
    exact rtPreserved_of_eq (terminate_elements h).1

/-- Witness for C4: the readthrough no-op part applied to a concrete
state whose terminator has its flag already set. -/
theorem c4_readthrough_permanent_witness :
    c4S.elements[0]? = some c4TermElem ∧ c4TermElem.readthrough = true ∧
    resolve_termination .generic c4S exPol 0 zeroRolls 0 = .ok (c4S, 0, []) :=
  ⟨rfl, rfl, c4_readthrough_permanent.1 .generic c4S exPol 0 zeroRolls 0
    c4TermElem rfl rfl⟩

/-- C10: in terminate (every variant), the propensity-changed
notification fires carrying the pre-deletion polymerase and weight
sequences together with the already-decremented total, the terminating
polymerase still being a member of the snapshot sequence; hence a
handler for which the sum invariant held on entry sees
sum(prop_list) = prop_sum + pol.speed at that instant. -/
theorem c10_propensity_snapshot (v : Variant) (s : PolymerState)
    (pol : Polymerase) (a : Int) (g : String) (s' : PolymerState)
    (evs : List Event) (hInv : s.prop_list.sum = s.prop_sum)
    (h : terminate v s pol a g = .ok (s', evs)) :
    Event.propensityChanged s.polymerases s.prop_list
        (s.prop_sum - pol.speed) ∈ evs ∧
    pol ∈ s.polymerases ∧
    s.prop_list.sum = (s.prop_sum - pol.speed) + pol.speed := by
  rw [terminate_ok_iff] at h
  obtain ⟨i, hidx, _, rfl⟩ := h
  obtain ⟨x, hx, hpx⟩ := firstIdxWhere_spec _ _ _ hidx
  have hxpol : x = pol := by simpa using hpx
  refine ⟨by simp, ?_, by rw [hInv]; ring⟩
  rw [← hxpol]
  exact mem_of_getOpt hx

/-- Witness for C10: the snapshot property evaluated on the example
terminate call. -/
theorem c10_propensity_snapshot_witness :
    exS.prop_list.sum = exS.prop_sum ∧
    (Event.propensityChanged exS.polymerases exS.prop_list
        (exS.prop_sum - exPol.speed) ∈ c10ResEvs ∧
      exPol ∈ exS.polymerases ∧
      exS.prop_list.sum = (exS.prop_sum - exPol.speed) + exPol.speed) :=
  ⟨by simp [exS], c10_propensity_snapshot .generic exS exPol 49 "" c10ResS
    c10ResEvs (by simp [exS]) rfl⟩

/-- C6 counterexample: the claim says every engine variant's terminate
fires a termination notification, but the base Polymer.terminate
completes while firing only the release and propensity-changed
notifications: its trace holds no termination notification at all. -/
theorem c6_counterexample :
    isOkPE (terminate .generic exS exPol 49 "") = true ∧
    hasTerminatedEvent (termEventsOf (terminate .generic exS exPol 49 ""))
      = false := by decide

/-- C6 (amended): terminate, in every engine variant, decrements the
running propensity total by the polymerase's weight, fires a release
notification carrying the release coordinate first, fires
propensity-changed, and removes the polymerase and its aligned weight
from their sequences; the termination notification is subclass-specific:
Genome fires terminated(name), Transcript fires terminated(name, gene),
and the base Polymer fires no termination notification. -/
theorem c6_terminate_behavior (v : Variant) (s : PolymerState)
    (pol : Polymerase) (a : Int) (g : String) (i : Nat)
    (hidx : firstIdxWhere (fun q => q == pol) s.polymerases = some i) :
    ∃ s' evs, terminate v s pol a g = .ok (s', evs) ∧
      s'.prop_sum = s.prop_sum - pol.speed ∧
      evs.head? = some (.released a) ∧
      Event.propensityChanged s.polymerases s.prop_list
        (s.prop_sum - pol.speed) ∈ evs ∧
      s'.polymerases = removeAt s.polymerases i ∧
      s'.prop_list = removeAt s.prop_list i ∧
      (v = .genome → Event.terminated pol.name none ∈ evs) ∧
      (v = .transcript → Event.terminated pol.name (some g) ∈ evs) ∧
      (v = .generic → hasTerminatedEvent evs = false) := by
  refine ⟨_, _, (terminate_ok_iff v s pol a g _ _).mpr ⟨i, hidx, rfl, rfl⟩,
    rfl, ?_, ?_, rfl, rfl, ?_, ?_, ?_⟩
  · cases v <;> rfl
  · cases v <;> simp [terminationEvents]
  · rintro rfl; simp [terminationEvents]
  · rintro rfl; simp [terminationEvents]
  · rintro rfl; simp [terminationEvents, hasTerminatedEvent]

/-- Witness for C6: the amended description evaluated on the Transcript
variant at the running example. -/
theorem c6_terminate_behavior_witness :
    firstIdxWhere (fun q => q == exPol) exS.polymerases = some 0 ∧
    (∃ s' evs, terminate .transcript exS exPol 49 "g1" = .ok (s', evs) ∧
      s'.prop_sum = exS.prop_sum - exPol.speed ∧
      evs.head? = some (.released 49) ∧
      Event.propensityChanged exS.polymerases exS.prop_list
        (exS.prop_sum - exPol.speed) ∈ evs ∧
      s'.polymerases = removeAt exS.polymerases 0 ∧
      s'.prop_list = removeAt exS.prop_list 0 ∧
      (Variant.transcript = .genome →
        Event.terminated exPol.name none ∈ evs) ∧
      (Variant.transcript = .transcript →
        Event.terminated exPol.name (some "g1") ∈ evs) ∧
      (Variant.transcript = .generic → hasTerminatedEvent evs = false)) :=
  ⟨by decide, c6_terminate_behavior .transcript exS exPol 49 "g1" 0 (by decide)⟩

/-- C7: whenever a movement step completes and leaves the moved
polymerase's stop beyond the polymer's own stop bound, the step
terminated the polymerase unconditionally: the trace carries a release
notification at the polymer's stop coordinate and the polymerase count
strictly decreased, no terminator element being required anywhere. -/
theorem c7_runoff_termination (v : Variant) (s : PolymerState) (polIdx : Nat)
    (rolls : Nat → ℚ) (s' : PolymerState) (p' : Polymerase) (evs : List Event)
    (h : move_polymerase v s polIdx rolls = .ok (s', p', evs))
    (hover : p'.stop > s.stop) :
    Event.released s.stop ∈ evs ∧
    s'.polymerases.length < s.polymerases.length :=
  (move_polymerase_main h).2.2.2.2 hover

/-- Witness for C7: the run-off move on a polymer with no terminator at
all. -/
theorem c7_runoff_termination_witness :
    c7ResP.stop > c7S.stop ∧
    (Event.released c7S.stop ∈ c7ResEvs ∧
      c7ResS.polymerases.length < c7S.polymerases.length) :=
  ⟨by decide, c7_runoff_termination .generic c7S 0 zeroRolls c7ResS c7ResP
    c7ResEvs rfl (by decide)⟩

/-- C2 counterexample: the claim says a binding whose stop would reach
or pass the mask start (stop ≥ mask.start) always fails, but with the
selected free promoter giving stop = mask.start = 15 the binding
completes: the guard in polymer.py line 110 is strict. -/
theorem c2_counterexample :
    weightedChoiceIdx ((bindChoices c2S "p1").map fun _ => (1 : ℚ)) 0
      = some 0 ∧
    (bindChoices c2S "p1")[0]? = some (0, c2PromElem) ∧
    c2PromElem.start + c2Pol.footprint - 1 ≥ c2S.mask.start ∧
    isOkB (bind_polymerase c2S c2Pol "p1" 0) = true := by
  have hbc : bindChoices c2S "p1" = [(0, c2PromElem)] := by decide
  have hw : weightedChoiceIdx ((bindChoices c2S "p1").map fun _ => (1 : ℚ)) 0
      = some 0 := by
    rw [hbc]
    norm_num [weightedChoiceIdx, weightedChoiceIdx.go]
  refine ⟨hw, by rw [hbc]; rfl, by decide, ?_⟩
  unfold bind_polymerase
  dsimp only
  rw [if_neg (show ¬((bindChoices c2S "p1").isEmpty = true) by rw [hbc]; simp)]
  rw [hw]
  dsimp only
  rw [hbc]
  simp only [List.getElem?_cons_zero]
  decide

/-- C2 (amended): when the selected free promoter element would give the
polymerase a stop coordinate strictly past the mask start
(stop > mask.start), bind_polymerase raises and the binding does not
take place; stop = mask.start is allowed by the code. -/
theorem c2_mask_guard (s : PolymerState) (pol : Polymerase)
    (promoter : String) (r : ℚ) (k j : Nat) (e : Element)
    (hsel1 : weightedChoiceIdx ((bindChoices s promoter).map fun _ => (1 : ℚ))
      r = some k)
    (hsel2 : (bindChoices s promoter)[k]? = some (j, e))
    (hguard : e.start + pol.footprint - 1 > s.mask.start) :
    ∃ msg, bind_polymerase s pol promoter r = .error msg := by
  unfold bind_polymerase
  dsimp only
  have hne : ¬((bindChoices s promoter).isEmpty = true) := by
    intro hemp
    rw [List.isEmpty_iff] at hemp
    rw [hemp] at hsel2
    simp at hsel2
  rw [if_neg hne, hsel1]
  dsimp only
  rw [hsel2]
  dsimp only
  cases hci : e.check_interaction pol.name with
  | false =>
    simp only [hci, Bool.not_false, if_true]
    exact ⟨_, rfl⟩
  | true =>
    simp only [hci, Bool.not_true, Bool.false_eq_true, if_false]
    by_cases hfp : e.stop < e.start + pol.footprint - 1
    · rw [if_pos hfp]
      exact ⟨_, rfl⟩
    · rw [if_neg hfp]
      rw [if_pos hguard]
      exact ⟨_, rfl⟩

/-- Witness for the amended C2: footprint 11 bound at 5 gives stop 15,
strictly past the mask start 14, and the binding raises. -/
theorem c2_mask_guard_witness :
    weightedChoiceIdx ((bindChoices c2SB "p1").map fun _ => (1 : ℚ)) 0
      = some 0 ∧
    (bindChoices c2SB "p1")[0]? = some (0, c2PromElem) ∧
    c2PromElem.start + c2Pol.footprint - 1 > c2SB.mask.start ∧
    (∃ msg, bind_polymerase c2SB c2Pol "p1" 0 = .error msg) := by
  have hbc : bindChoices c2SB "p1" = [(0, c2PromElem)] := by decide
  have hw : weightedChoiceIdx ((bindChoices c2SB "p1").map fun _ => (1 : ℚ)) 0
      = some 0 := by
    rw [hbc]
    norm_num [weightedChoiceIdx, weightedChoiceIdx.go]
  exact ⟨hw, by rw [hbc]; rfl, by decide,
    c2_mask_guard c2SB c2Pol "p1" 0 0 0 c2PromElem hw (by rw [hbc]; rfl)
      (by decide)⟩

/-- C3 counterexample: a movement step in which the termination roll
succeeds (roll 0 against efficiency 1) does terminate the polymerase at
the terminator's stop with its gene label, but the terminator element
ends the step UNCOVERED (covered = false), contradicting the claim that
on success the element ends the step covered: _resolve_termination
calls element.uncover() on success (polymer.py line 316). -/
theorem c3_counterexample :
    elemCoveredAt (move_polymerase .transcript exS 0 zeroRolls) 0
      = some false ∧
    Event.released 55 ∈ moveEventsOf (move_polymerase .transcript exS 0
      zeroRolls) ∧
    Event.terminated "rnapol" (some "g1")
      ∈ moveEventsOf (move_polymerase .transcript exS 0 zeroRolls) := by
  norm_num [move_polymerase, uncoverLoop, coverLoop, resolve_termination,
    terminate, resolve_collisions, resolve_mask_collisions, checkStateAt,
    updElem, syncPol, exS, exPol, exTermElem, exMaskFar, initPolymer, initStep,
    spansIntersect, Element.check_interaction, Element.cover, Element.uncover,
    Element.save_state, Terminator, firstIdxWhere, terminationEvents, removeAt,
    moveEventsOf, elemCoveredAt, zeroRolls, Mask.check_interaction,
    Polymerase.move, Polymerase.move_back, dictAdjust, Promoter]

/-- C3 (amended): when a movement step reaches a terminator that
interacts with the polymerase's species and is not readthrough, exactly
one random value (rolls d) is drawn and compared to that species'
termination efficiency — the draw counter advances by exactly one in
both outcomes.  On success the element is UNCOVERED and the polymerase
is terminated at the terminator's stop coordinate carrying the
element's gene label (the Transcript variant's termination notification
carries that label); on failure the terminator's readthrough flag is
set true and nothing else changes. -/
theorem c3_resolve_termination (v : Variant) (s : PolymerState)
    (p : Polymerase) (k : Nat) (rolls : Nat → ℚ) (d : Nat) (e : Element)
    (eff : ℚ) (he : s.elements[k]? = some e)
    (hterm : e.etype = "terminator")
    (hint : e.check_interaction p.name = true)
    (hrt : e.readthrough = false)
    (heff : e.efficiency.lookup p.name = some eff) :
    (rolls d ≤ eff →
      (∃ msg, terminate v (updElem s k Element.uncover) p e.stop e.gene
          = .error msg ∧
        resolve_termination v s p k rolls d = .error msg) ∨
      (∃ s2 evs2, terminate v (updElem s k Element.uncover) p e.stop e.gene
          = .ok (s2, evs2) ∧
        resolve_termination v s p k rolls d = .ok (s2, d + 1, evs2) ∧
        (s2.elements[k]?).map Element.covered = some false ∧
        Event.released e.stop ∈ evs2 ∧
        (v = .transcript →
          Event.terminated p.name (some e.gene) ∈ evs2))) ∧
    (¬ rolls d ≤ eff →
      resolve_termination v s p k rolls d =
        .ok (updElem s k (fun e0 => { e0 with readthrough := true }),
          d + 1, []) ∧
      ((updElem s k (fun e0 => { e0 with readthrough := true })).elements[k]?).map
        Element.readthrough = some true) := by
  have hklt : k < s.elements.length := (List.getElem?_eq_some.mp he).1
  have hupd : updElem s k Element.uncover =
      { s with elements := s.elements.set k e.uncover } := by
    unfold updElem
    rw [he]
  have hbase : resolve_termination v s p k rolls d =
      (if rolls d ≤ eff then
        match terminate v (updElem s k Element.uncover) p e.stop e.gene with
        | .error msg => .error msg
        | .ok (s2, evs) => .ok (s2, d + 1, evs)
      else .ok (updElem s k (fun e0 => { e0 with readthrough := true }),
        d + 1, [])) := by
    unfold resolve_termination
    rw [he]
    dsimp only
    rw [if_neg (show ¬(e.etype ≠ "terminator") from fun hn => hn hterm)]
    simp only [hint, Bool.not_true, Bool.false_eq_true, if_false]
    simp only [hrt, Bool.false_eq_true, if_false]
    rw [heff]
  constructor
  · intro hroll
    rw [if_pos hroll] at hbase
    cases ht2 : terminate v (updElem s k Element.uncover) p e.stop e.gene with
    | error msg =>
      rw [ht2] at hbase
      exact Or.inl ⟨msg, rfl, hbase⟩
    | ok pr =>
      obtain ⟨s2, evs2⟩ := pr
      rw [ht2] at hbase
      refine Or.inr ⟨s2, evs2, rfl, hbase, ?_, ?_, ?_⟩
      · obtain ⟨helem, _, _⟩ := terminate_elements ht2
        rw [helem, hupd]
        simp only
        rw [getOpt_set_self _ hklt]
        rfl
      · rw [terminate_ok_iff] at ht2
        obtain ⟨i, _, _, rfl⟩ := ht2
        simp
      · rintro rfl
        rw [terminate_ok_iff] at ht2
        obtain ⟨i, _, _, rfl⟩ := ht2
        simp [terminationEvents]
  · intro hroll
    rw [if_neg hroll] at hbase
    refine ⟨hbase, ?_⟩
    unfold updElem
    rw [he]
    simp only
    rw [getOpt_set_self _ hklt]
    rfl

/-- Witness for the amended C3: the success branch at roll 0 against
efficiency 1, Transcript variant. -/
theorem c3_resolve_termination_witness :
    exS.elements[0]? = some exTermElem ∧
    exTermElem.etype = "terminator" ∧
    exTermElem.check_interaction exPol.name = true ∧
    exTermElem.readthrough = false ∧
    exTermElem.efficiency.lookup exPol.name = some 1 ∧
    zeroRolls 0 ≤ (1 : ℚ) ∧
    ((∃ msg, terminate .transcript (updElem exS 0 Element.uncover) exPol
        exTermElem.stop exTermElem.gene = .error msg ∧
      resolve_termination .transcript exS exPol 0 zeroRolls 0
        = .error msg) ∨
    (∃ s2 evs2, terminate .transcript (updElem exS 0 Element.uncover) exPol
        exTermElem.stop exTermElem.gene = .ok (s2, evs2) ∧
      resolve_termination .transcript exS exPol 0 zeroRolls 0
        = .ok (s2, 0 + 1, evs2) ∧
      (s2.elements[0]?).map Element.covered = some false ∧
      Event.released exTermElem.stop ∈ evs2 ∧
      (Variant.transcript = Variant.transcript →
        Event.terminated exPol.name (some exTermElem.gene) ∈ evs2))) :=
  ⟨rfl, rfl, rfl, rfl, rfl, by norm_num [zeroRolls],
    (c3_resolve_termination .transcript exS exPol 0 zeroRolls 0 exTermElem 1
      rfl rfl rfl rfl rfl).1 (by norm_num [zeroRolls])⟩

theorem resolve_collisions_revert {s : PolymerState} {polIdx : Nat}
    {p next : Polymerase} (hn : s.polymerases[polIdx + 1]? = some next)
    (h1 : next.stop ≥ p.start) (h3 : p.stop ≥ next.start)
    (h2 : ¬ p.stop - next.start > 1) :
    resolve_collisions s polIdx p
      = .ok (syncPol s polIdx p.move_back, p.move_back, true) := by
  have hlt : polIdx + 1 < s.polymerases.length := (List.getElem?_eq_some.mp hn).1
  unfold resolve_collisions
  rw [if_neg (by omega)]
  rw [hn]
  dsimp only
  rw [if_pos (show spansIntersect p.start p.stop next.start next.stop = true by
    simp only [spansIntersect, Bool.and_eq_true, decide_eq_true_eq]
    omega)]
  rw [if_neg h2]

/-- C5: during a movement step only the polymerase at the next-higher
index is checked for collision: when the index has no successor, or the
moved polymerase does not intersect that single neighbor, no collision
occurs no matter what any other polymerase does; when it overlaps the
neighbor by exactly one unit (pol.stop - next.start = 1, the code's own
overlap measure) the move is reverted (the polymerase steps back), the
collision is flagged, and the completed step fires no moved
notification; when the overlap exceeds one unit the step raises a fatal
error. -/
theorem c5_collision_resolution :
    (∀ (s : PolymerState) (polIdx : Nat) (p : Polymerase),
        polIdx + 1 ≥ s.polymerases.length →
        resolve_collisions s polIdx p = .ok (s, p, false)) ∧
    (∀ (s : PolymerState) (polIdx : Nat) (p next : Polymerase),
        s.polymerases[polIdx + 1]? = some next →
        spansIntersect p.start p.stop next.start next.stop = false →
        resolve_collisions s polIdx p = .ok (s, p, false)) ∧
    (∀ (s : PolymerState) (polIdx : Nat) (p next : Polymerase),
        s.polymerases[polIdx + 1]? = some next →
        next.stop ≥ p.start → p.stop - next.start = 1 →
        resolve_collisions s polIdx p
          = .ok (syncPol s polIdx p.move_back, p.move_back, true)) ∧
    (∀ (s : PolymerState) (polIdx : Nat) (p next : Polymerase),
        s.polymerases[polIdx + 1]? = some next →
        next.stop ≥ p.start → p.stop - next.start > 1 →
        ∃ msg, resolve_collisions s polIdx p = .error msg) ∧
    (∀ (v : Variant) (s : PolymerState) (polIdx : Nat) (rolls : Nat → ℚ)
        (p0 next : Polymerase) (s' : PolymerState) (p' : Polymerase)
        (evs : List Event),
        s.polymerases[polIdx]? = some p0 →
        s.polymerases[polIdx + 1]? = some next →
        next.stop ≥ p0.move.start → p0.move.stop - next.start = 1 →
        move_polymerase v s polIdx rolls = .ok (s', p', evs) →
        Event.moved ∉ evs) := by
  refine ⟨?_, ?_, ?_, ?_, ?_⟩
  · intro s polIdx p hge
    unfold resolve_collisions
    rw [if_pos (by omega)]
  · intro s polIdx p next hn hni
    have hlt : polIdx + 1 < s.polymerases.length :=
      (List.getElem?_eq_some.mp hn).1
    unfold resolve_collisions
    rw [if_neg (by omega)]
    rw [hn]
    dsimp only
    simp only [hni, Bool.false_eq_true, if_false]
  · intro s polIdx p next hn h1 h2
    exact resolve_collisions_revert hn h1 (by omega) (by omega)
  · intro s polIdx p next hn h1 h2
    have hlt : polIdx + 1 < s.polymerases.length :=
      (List.getElem?_eq_some.mp hn).1
    unfold resolve_collisions
    rw [if_neg (by omega)]
    rw [hn]
    dsimp only
    rw [if_pos (show spansIntersect p.start p.stop next.start next.stop = true
      by simp only [spansIntersect, Bool.and_eq_true, decide_eq_true_eq]
         omega)]
    rw [if_pos h2]
    exact ⟨_, rfl⟩
  · intro v s polIdx rolls p0 next s' p' evs hp0 hnext hov1 hov2 h
    unfold move_polymerase at h
    rw [hp0] at h
    dsimp only at h
    cases hul : uncoverLoop (s.elements.length + 1) s p0
        p0.left_most_element with
    | error msg => rw [hul] at h; simp at h
    | ok s1 =>
      rw [hul] at h
      dsimp only at h
      obtain ⟨u1, _, _, _, _, u6, _⟩ := uncoverLoop_main _ _ _ _ _ hul
      have hnext2 : (syncPol s1 polIdx p0.move).polymerases[polIdx + 1]?
          = some next := by
        unfold syncPol
        simp only
        rw [List.getElem?_set, if_neg (by omega), u1]
        exact hnext
      rw [resolve_collisions_revert hnext2 hov1 (by omega) (by omega)] at h
      dsimp only at h
      cases hrm : resolve_mask_collisions
          (syncPol (syncPol s1 polIdx p0.move) polIdx p0.move.move_back)
          polIdx p0.move.move_back with
      | error msg => rw [hrm] at h; simp at h
      | ok mr =>
        rw [hrm] at h
        dsimp only at h
        have hmvM : Event.moved ∉ mr.2.2.2 := by
          rcases resolve_mask_ok (by rw [hrm] :
              resolve_mask_collisions _ polIdx p0.move.move_back
                = .ok (mr.1, mr.2.1, mr.2.2.1, mr.2.2.2)) with
            ⟨_, _, he3⟩ | ⟨_, _, he3⟩ | ⟨_, _, he3⟩
          · rw [he3]; simp
          · rw [he3]
            exact (shift_mask_main _).2.2.2.2.2.2
          · rw [he3]; simp
        cases hcl : coverLoop v (mr.1.elements.length + 1) mr.1 mr.2.1 polIdx
            true rolls 0 mr.2.1.left_most_element with
        | error msg => rw [hcl] at h; simp at h
        | ok lr =>
          rw [hcl] at h
          dsimp only at h
          obtain ⟨_, _, _, _, lmv, _⟩ := coverLoop_main v _ _ _ polIdx true
            rolls 0 _ lr.1 lr.2.1 lr.2.2.1 lr.2.2.2 (by rw [hcl])
          by_cases hrun : lr.2.1.stop > lr.1.stop
          · rw [if_pos hrun] at h
            cases hterm : terminate v lr.1 lr.2.1 lr.1.stop "" with
            | error msg => rw [hterm] at h; simp at h
            | ok tr =>
              rw [hterm] at h
              dsimp only at h
              cases h
              have hmvT : Event.moved ∉ tr.2 := terminate_noMoved
                (by rw [hterm] : terminate v lr.1 _ _ _ = .ok (tr.1, tr.2))
              intro hmem
              simp only [List.mem_append] at hmem
              rcases hmem with (hm | hm) | hm
              · rcases hm with hm2 | hm2
                · exact hmvM hm2
                · simp at hm2
              · exact lmv hm
              · exact hmvT hm
          · rw [if_neg hrun] at h
            cases h
            intro hmem
            simp only [List.mem_append] at hmem
            rcases hmem with (hm | hm) | hm
            · exact hmvM hm
            · simp at hm
            · exact lmv hm

/-- Witness for C5: the exactly-one-unit overlap at a concrete two
polymerase state: resolve_collisions reverts and flags, and the full
movement step fires no moved notification. -/
theorem c5_collision_resolution_witness :
    c5S.polymerases[0]? = some c5P0 ∧
    c5S.polymerases[1]? = some c5P1 ∧
    c5P1.stop ≥ c5P0.move.start ∧
    c5P0.move.stop - c5P1.start = 1 ∧
    resolve_collisions c5S 0 c5P0.move
      = .ok (syncPol c5S 0 c5P0.move.move_back, c5P0.move.move_back, true) ∧
    Event.moved ∉ c5ResEvs :=
  ⟨rfl, rfl, by decide, by decide,
    c5_collision_resolution.2.2.1 c5S 0 c5P0.move c5P1 rfl (by decide)
      (by decide),
    c5_collision_resolution.2.2.2.2 .generic c5S 0 zeroRolls c5P0 c5P1 c5ResS
      c5ResP c5ResEvs rfl rfl (by decide) (by decide) rfl⟩

/-- C9: after a successful base binding, Genome.bind_polymerase builds a
Transcript over exactly the template genes fully contained within
[binding coordinate, genome stop], each contributing a
ribosome-binding-site promoter and a stop-codon terminator whose
termination efficiency for the translating species (ribosome) is
exactly 1 and which carries the gene's name; it fails when no gene
qualifies; on success it connects the polymerase's moved notification
to the transcript's mask shift and its release notification to the
transcript's release, and fires a transcript-created notification
carrying the new Transcript. -/
theorem c9_genome_bind (s : PolymerState) (template : List TemplateGene)
    (pol : Polymerase) (promoter : String) (r : ℚ) (s' : PolymerState)
    (pol' : Polymerase) (evsB : List Event)
    (hbind : bind_polymerase s pol promoter r = .ok (s', pol', evsB)) :
    (templateElements template pol'.start s'.stop = [] →
      ∃ msg, genome_bind_polymerase s template pol promoter r
        = .error msg) ∧
    (pol'.start ≥ 0 → s'.stop > 0 →
      templateElements template pol'.start s'.stop ≠ [] →
      genome_bind_polymerase s template pol promoter r =
        .ok (s',
          initPolymer "rna" s'.start s'.stop
            (templateElements template pol'.start s'.stop)
            { name := "mask", start := pol'.start, stop := s'.stop,
              interactions := [] },
          [Wiring.movedShiftMask, Wiring.releaseRelease],
          evsB ++ [Event.transcriptCreated (initPolymer "rna" s'.start s'.stop
            (templateElements template pol'.start s'.stop)
            { name := "mask", start := pol'.start, stop := s'.stop,
              interactions := [] })])) ∧
    (∀ g ∈ template, g.start ≥ pol'.start → g.stop ≤ s'.stop →
      Promoter "rbs" (g.start + g.rbs) g.start ["ribosome"]
          ∈ templateElements template pol'.start s'.stop ∧
      ({ Terminator "tstop" (g.stop - 1) g.stop [("ribosome", 1)] with gene := g.name })
          ∈ templateElements template pol'.start s'.stop ∧
      ({ Terminator "tstop" (g.stop - 1) g.stop [("ribosome", 1)] with gene := g.name }).efficiency.lookup
          "ribosome" = some 1) := by
  refine ⟨?_, ?_, ?_⟩
  · intro hempty
    obtain ⟨msg, hbt⟩ : ∃ msg, build_transcript s'.start s'.stop template
        pol'.start s'.stop = .error msg := by
      unfold build_transcript
      by_cases a1 : pol'.start ≥ 0
      · rw [if_neg (by simp [a1])]
        by_cases a2 : s'.stop > 0
        · rw [if_neg (by simp [a2])]
          dsimp only
          rw [if_pos (show (templateElements template pol'.start
              s'.stop).isEmpty = true by rw [hempty]; rfl)]
          exact ⟨_, rfl⟩
        · rw [if_pos (by simp [a2])]
          exact ⟨_, rfl⟩
      · rw [if_pos (by simp [a1])]
        exact ⟨_, rfl⟩
    unfold genome_bind_polymerase
    rw [hbind]
    dsimp only
    rw [hbt]
    exact ⟨msg, rfl⟩
  · intro a1 a2 hne
    have hbt : build_transcript s'.start s'.stop template pol'.start s'.stop
        = .ok (initPolymer "rna" s'.start s'.stop
            (templateElements template pol'.start s'.stop)
            { name := "mask", start := pol'.start, stop := s'.stop,
              interactions := [] }) := by
      unfold build_transcript
      rw [if_neg (by simp [a1]), if_neg (by simp [a2])]
      dsimp only
      rw [if_neg (show ¬((templateElements template pol'.start
          s'.stop).isEmpty = true) by rw [List.isEmpty_iff]; exact hne)]
    unfold genome_bind_polymerase
    rw [hbind]
    dsimp only
    rw [hbt]
  · intro g hg hst hsp
    refine ⟨?_, ?_, rfl⟩
    · unfold templateElements
      rw [List.mem_flatMap]
      refine ⟨g, hg, ?_⟩
      rw [if_pos (show (decide (g.start ≥ pol'.start)
          && decide (g.stop ≤ s'.stop)) = true by
        simp only [Bool.and_eq_true, decide_eq_true_eq]
        exact ⟨hst, hsp⟩)]
      simp
    · unfold templateElements
      rw [List.mem_flatMap]
      refine ⟨g, hg, ?_⟩
      rw [if_pos (show (decide (g.start ≥ pol'.start)
          && decide (g.stop ≤ s'.stop)) = true by
        simp only [Bool.and_eq_true, decide_eq_true_eq]
        exact ⟨hst, hsp⟩)]
      simp

/-- Witness for C9: the concrete genome binding with one qualifying
gene, run end to end. -/
theorem c9_genome_bind_witness :
    bind_polymerase gS gPol "p1" 0 = .ok (gBoundS, gBoundP, gBoundEvs) ∧
    gBoundP.start ≥ 0 ∧ gBoundS.stop > 0 ∧
    templateElements gTemplate gBoundP.start gBoundS.stop ≠ [] ∧
    genome_bind_polymerase gS gTemplate gPol "p1" 0 =
      .ok (gBoundS,
        initPolymer "rna" gBoundS.start gBoundS.stop
          (templateElements gTemplate gBoundP.start gBoundS.stop)
          { name := "mask", start := gBoundP.start, stop := gBoundS.stop,
            interactions := [] },
        [Wiring.movedShiftMask, Wiring.releaseRelease],
        gBoundEvs ++ [Event.transcriptCreated (initPolymer "rna" gBoundS.start
          gBoundS.stop (templateElements gTemplate gBoundP.start gBoundS.stop)
          { name := "mask", start := gBoundP.start, stop := gBoundS.stop,
            interactions := [] })]) := by
  have hbind : bind_polymerase gS gPol "p1" 0
      = .ok (gBoundS, gBoundP, gBoundEvs) := by
    norm_num [bind_polymerase, bindChoices, weightedChoiceIdx,
      weightedChoiceIdx.go, gS, gPol, initPolymer, initStep, spansIntersect,
      Promoter, Element.check_interaction, Element.cover, Element.save_state,
      Element.is_covered, insert_polymerase, insertPos, firstIdxWhere,
      pyInsert, dictAdjust, gBoundS, gBoundP, gBoundEvs]
    intro hcontra
    exact absurd hcontra (by decide)
  exact ⟨hbind, by decide, by decide, by decide,
    (c9_genome_bind gS gTemplate gPol "p1" 0 gBoundS gBoundP gBoundEvs
      hbind).2.1 (by decide) (by decide) (by decide)⟩

end PySinthe
